import Mathlib

/-!
Verification of the auto-wiz recorder/replayer core.

This file gives a shallow embedding of the locator-generation,
locator-resolution and flow-execution code of the repository
(`src/packages/puppeteer/src/runner.ts`,
`src/packages/dom/src/selectors/locatorUtils.ts`,
`src/packages/dom/src/steps/stepExecution.ts`, `src/unnamed/part_003`)
and proves or refutes the frozen specification claims about it.
-/

namespace AutoWiz

/-! ## Decimal rendering of numbers (JS template interpolation of a number) -/

/-- Fuel-bounded worker for `natDigits` (`n + 1` fuel always suffices). -/
def natDigitsAux : Nat → Nat → List Char
  | 0, _ => []
  | fuel + 1, n =>
    if n < 10 then [Char.ofNat (48 + n)]
    else natDigitsAux fuel (n / 10) ++ [Char.ofNat (48 + n % 10)]

/-- Decimal digits of a natural number, as the characters produced when a JS
number is interpolated into a template string. -/
def natDigits (n : Nat) : List Char := natDigitsAux (n + 1) n

/-- Decimal rendering of a natural number as a string. -/
def natToStr (n : Nat) : String := String.mk (natDigits n)

/-! ## Shared data model (`@auto-wiz/core` types) -/

/-- Form context metadata (`metadata.formContext`) of a locator: the owning form's selector and the
1-based index of the field among the form's input/textarea/select fields. -/
structure FormContext where
  formSelector : String
  fieldIndex : Nat
deriving DecidableEq, Repr

/-- The descriptive metadata bag of an `ElementLocator`.  `none` models a JS
`undefined` field. -/
structure LocatorMetadata where
  text : Option String := none
  role : Option String := none
  tagName : Option String := none
  testId : Option String := none
  ariaLabel : Option String := none
  placeholder : Option String := none
  title : Option String := none
  labelText : Option String := none
  formContext : Option FormContext := none
deriving DecidableEq, Repr

/-- Locator record (`ElementLocator`): primary selector, ordered fallback selectors, metadata. -/
structure ElementLocator where
  primary : String
  fallbacks : List String
  metadata : Option LocatorMetadata := none
deriving DecidableEq, Repr

/-- JS truthiness of an optional string field (`undefined`/`null`/`""` are
falsy). -/
def truthy : Option String → Bool
  | none => false
  | some s => s != ""

/-- Per-step result (`ExecutionResult`). -/
structure ExecutionResult where
  success : Bool
  error : Option String := none
  extractedData : Option String := none
  usedSelector : Option String := none
deriving DecidableEq, Repr

/-- Aggregate result of a flow run (`RunResult`).  `extractedData` is the
insertion-ordered record built by the run loop. -/
structure RunResult where
  success : Bool
  error : Option String := none
  failedStepIndex : Option Nat := none
  extractedData : List (String × String) := []
deriving DecidableEq, Repr

/-- Runner options (`RunnerOptions`) (the fields the modelled code reads). -/
structure RunnerOptions where
  timeout : Option Nat := none
  stopOnError : Option Bool := none
  varsMap : Option (List (String × String)) := none

/-! ## Flow run loop (`PuppeteerFlowRunner.run` / `PlaywrightFlowRunner.run`)

Both runners iterate `flow.steps.entries()`, call `runStep`, and on a failed
result return early (when `options.stopOnError !== false`) with the failed
index and the data collected so far; a successful step's truthy
`extractedData` is recorded under the key `step_<index>`.  `runStep` has a
catch-all and never throws, so the loop body's `catch` is dead in the model;
we model the loop over the list of per-step `ExecutionResult`s. -/

/-- Key under which step `i`'s extracted data is recorded. -/
def stepKey (i : Nat) : String := "step_" ++ natToStr i

/-- The shared run loop, parametrised by the effective stop-on-error flag.
`acc` is the reversed record of data collected so far. -/
def runAux (stop : Bool) (i : Nat) (acc : List (String × String)) :
    List ExecutionResult → RunResult
  | [] => { success := true, extractedData := acc.reverse }
  | r :: rs =>
    if !r.success && stop then
      { success := false, error := r.error, failedStepIndex := some i,
        extractedData := acc.reverse }
    else
      runAux stop (i + 1)
        (match r.extractedData with
          | some d => if d ≠ "" then (stepKey i, d) :: acc else acc
          | none => acc) rs

/-- Run loop of `PuppeteerFlowRunner.run` over the list of step results (the runner
performs no implicit navigation; the page state is not consulted). -/
def puppeteerRunLoop (options : RunnerOptions) (results : List ExecutionResult) :
    RunResult :=
  runAux (options.stopOnError != some false) 0 [] results

/-- The fields of a step that the run-level (not step-level) code inspects. -/
structure RunStepView where
  type : String
  url : Option String
deriving DecidableEq, Repr

/-- Run-time environment of a runner: the page's current URL and the outcome
of navigating to a given URL (`some msg` = `page.goto` throws `msg`). -/
structure PageEnv where
  initialUrl : String
  gotoError : String → Option String

/-- Model of `PuppeteerFlowRunner.run` with the page environment in scope: the source
never reads `page.url()` nor performs any navigation outside an explicit
`navigate` step, so the environment and the step views are unused. -/
def puppeteerRun (_env : PageEnv) (options : RunnerOptions)
    (_steps : List RunStepView) (results : List ExecutionResult) : RunResult :=
  puppeteerRunLoop options results

/-- Model of `PlaywrightFlowRunner.run`: implicit navigation when the page is at
`about:blank` and the first step carries a URL but is not a `navigate` step,
then the shared loop. -/
def playwrightRun (env : PageEnv) (options : RunnerOptions)
    (steps : List RunStepView) (results : List ExecutionResult) : RunResult :=
  let loop := runAux (options.stopOnError != some false) 0 [] results
  if env.initialUrl = "about:blank" ∧ steps ≠ [] then
    match steps.head? with
    | some s0 =>
      if s0.type ≠ "navigate" ∧ truthy s0.url then
        match env.gotoError (s0.url.getD "") with
        | some msg =>
          { success := false,
            error := some ("Implicit navigation failed: " ++ msg),
            failedStepIndex := some 0, extractedData := [] }
        | none => loop
      else loop
    | none => loop
  else loop

/-! ## Placeholder substitution (`resolveText`)

`text.replace(/\x7b\x7b(\w+)\x7d\x7d/g, (_, key) => variables[key] ?? "")`:
at every position a literal `{{`, one or more word characters and a literal
`}}` are replaced by the variable's value, or by the empty string when the
name is absent; `\w+` is a run of word characters, which never include `}`,
so the match is exactly the maximal word run followed immediately by `}}`. -/

/-- JS `\w` character class. -/
def isWordChar (c : Char) : Bool := c.isAlphanum || c = '_'

/-- Fuel-bounded worker of the global-regex replacement scan over the
characters of the text (fuel `length + 1` always suffices: every recursive
call shortens the list).  At a `{{` the maximal word run must be non-empty
and be followed by `}}`; otherwise the engine advances one character. -/
def substAux (lookup : String → Option String) : Nat → List Char → List Char
  | 0, l => l
  | _ + 1, [] => []
  | fuel + 1, c :: cs =>
    if c = '{' ∧ cs.head? = some '{' then
      let rest := cs.tail
      let name := rest.takeWhile isWordChar
      let after := rest.dropWhile isWordChar
      if name ≠ [] ∧ after.head? = some '}' ∧ after.tail.head? = some '}' then
        ((lookup (String.mk name)).getD "").data ++
          substAux lookup fuel after.tail.tail
      else c :: substAux lookup fuel cs
    else c :: substAux lookup fuel cs

/-- The global-regex replacement scan over the characters of the text. -/
def substPlaceholders (lookup : String → Option String) (l : List Char) :
    List Char :=
  substAux lookup (l.length + 1) l

/-- Placeholder resolution `resolveText` (identical in `stepExecution.ts` and the puppeteer runner):
no variable map or empty text returns the text unchanged; otherwise every
placeholder is replaced by the variable's value, absent names by `""`. -/
def resolveText (text : String) (varsMap : Option (List (String × String))) :
    String :=
  match varsMap with
  | none => text
  | some vars =>
    if text = "" then text
    else String.mk (substPlaceholders
      (fun k => (vars.find? (fun kv => kv.1 == k)).map (·.2)) text.data)

/-! ## The DOM model

Elements are modelled as a tree of element and text nodes.  An element
carries its (lowercased) tag name, its attributes, its class list, the
computed-style properties the code reads (`display`, `visibility`,
`opacity`, `pointerEvents`), its `disabled` flag, its current `value`, and
whether it is an SVG (not HTML) element and has a non-empty client rect.
The root of the tree plays the role of `document.body`.  A concrete element
is addressed by its path (list of child indices) from the root. -/

/-- Observable data of one DOM element. -/
structure ElemData where
  tag : String
  attrs : List (String × String) := []
  classes : List String := []
  display : String := "block"
  visibility : String := "visible"
  opacity : String := "1"
  pointerEvents : String := "auto"
  disabled : Bool := false
  value : String := ""
  svg : Bool := false
  hasClientRects : Bool := true
deriving DecidableEq, Repr

/-- A DOM node: an element with children, or a text node. -/
inductive DNode where
  | elem (data : ElemData) (children : List DNode)
  | txt (s : String)

/-- Path of child indices addressing a node from the root. -/
abbrev Path := List Nat

/-- Attribute lookup (`getAttribute`): `none` models a `null` result. -/
def getAttr (attrs : List (String × String)) (name : String) : Option String :=
  (attrs.find? (fun kv => kv.1 == name)).map (·.2)

mutual

/-- Concatenated text of a node (`textContent`). -/
def nodeText : DNode → String
  | .txt s => s
  | .elem _ cs => nodesText cs

/-- Concatenated text of a list of nodes. -/
def nodesText : List DNode → String
  | [] => ""
  | c :: cs => nodeText c ++ nodesText cs

end

/-- Node addressed by a path, if any. -/
def getNode? : DNode → Path → Option DNode
  | n, [] => some n
  | .elem _ cs, i :: p =>
    match cs.get? i with
    | some c => getNode? c p
    | none => none
  | .txt _, _ :: _ => none

/-- Element data at a path, if the path addresses an element. -/
def elemAt? (root : DNode) (p : Path) : Option ElemData :=
  match getNode? root p with
  | some (.elem d _) => some d
  | _ => none

/-- Children of the node at a path. -/
def childrenAt (root : DNode) (p : Path) : List DNode :=
  match getNode? root p with
  | some (.elem _ cs) => cs
  | _ => []

/-- Attribute of the element at a path. -/
def getAttrAt (root : DNode) (p : Path) (name : String) : Option String :=
  match elemAt? root p with
  | some d => getAttr d.attrs name
  | none => none

/-- Tag (lowercased, as stored) of the element at a path, or `""`. -/
def tagAt (root : DNode) (p : Path) : String :=
  ((elemAt? root p).map (·.tag)).getD ""

mutual

/-- Paths of all elements of a subtree in document (pre)order, the subtree's
root (if an element) included as `[]`. -/
def elemPaths : DNode → List Path
  | .elem _ cs => [] :: elemPathsList 0 cs
  | .txt _ => []

/-- Paths of all elements of a forest, child `i` prefixed with `i`. -/
def elemPathsList (i : Nat) : List DNode → List Path
  | [] => []
  | c :: cs => (elemPaths c).map (fun p => i :: p) ++ elemPathsList (i + 1) cs

end

/-- Paths of all strict descendants of the root, document order. -/
def strictDescPaths (n : DNode) : List Path :=
  (elemPaths n).filter (fun p => !p.isEmpty)

/-- Paths of all strict descendant elements of the node at `p`
(`node.querySelectorAll(...)` search space), document order. -/
def descPathsOf (root : DNode) (p : Path) : List Path :=
  match getNode? root p with
  | some n => (strictDescPaths n).map (fun q => p ++ q)
  | none => []

/-- First strict descendant of the node at `p` satisfying `pred`
(`node.querySelector(sel)`). -/
def firstDesc? (root : DNode) (p : Path) (pred : ElemData → Bool) : Option Path :=
  (descPathsOf root p).find? (fun q => ((elemAt? root q).map pred).getD false)

/-- Form-field tags (the `input, textarea, select` selector). -/
def isFormFieldTag (t : String) : Bool := t = "input" || t = "textarea" || t = "select"

/-- Index in `cs` of the previous element sibling of the child at index `i`
(`previousElementSibling`). -/
def prevElemSiblingIdx? (cs : List DNode) (i : Nat) : Option Nat :=
  (List.range i).reverse.find? (fun j =>
    match cs.get? j with
    | some (.elem _ _) => true
    | _ => false)

/-- Path of the previous element sibling of the element at `p`. -/
def prevElemSibling? (root : DNode) (p : Path) : Option Path :=
  match p.getLast? with
  | none => none
  | some i =>
    let q := p.dropLast
    match prevElemSiblingIdx? (childrenAt root q) i with
    | some j => some (q ++ [j])
    | none => none

/-- Path of the parent element of the element at `p` (`parentElement`;
the root's parent is `none`). -/
def parentPath? (p : Path) : Option Path :=
  match p with
  | [] => none
  | _ :: _ => some p.dropLast

/-- Fuel-bounded worker for `closestTag?`. -/
def closestTagAux (root : DNode) (tag : String) : Nat → Path → Option Path
  | 0, _ => none
  | fuel + 1, p =>
    if ((elemAt? root p).map (·.tag == tag)).getD false then some p
    else
      match p with
      | [] => none
      | _ :: _ => closestTagAux root tag fuel p.dropLast

/-- Nearest ancestor-or-self element with the given tag (`el.closest(tag)`). -/
def closestTag? (root : DNode) (tag : String) (p : Path) : Option Path :=
  closestTagAux root tag (p.length + 1) p

/-- Lookup of an element by its `id` attribute (`document.getElementById`). -/
def getElementById? (root : DNode) (id : String) : Option Path :=
  if id = "" then none
  else (elemPaths root).find? (fun p => getAttrAt root p "id" == some id)

/-! ## String helpers used by the source (substring test, hex-run regexes,
whitespace normalisation, `CSS.escape`) -/

/-- JS `a.includes(b)`. -/
def jsIncludes (a b : String) : Bool := decide (b.data <:+: a.data)

/-- JS `s.startsWith(pre)`. -/
def jsStartsWith (s pre : String) : Bool := pre.data.isPrefixOf s.data

/-- JS `s.trim()`: whitespace stripped from both ends. -/
def jsTrim (s : String) : String :=
  String.mk (((s.data.dropWhile Char.isWhitespace).reverse.dropWhile
    Char.isWhitespace).reverse)

/-- JS `s.toLowerCase()` (ASCII case folding). -/
def jsToLower (s : String) : String := String.mk (s.data.map Char.toLower)

/-- Hexadecimal digit, case-insensitively (`[0-9a-f]` with the `i` flag). -/
def isHexDigitCI (c : Char) : Bool :=
  c.isDigit || ('a' ≤ c && c ≤ 'f') || ('A' ≤ c && c ≤ 'F')

/-- Hexadecimal digit, lowercase only (`[0-9a-f]` without the `i` flag). -/
def isHexDigitCS (c : Char) : Bool := c.isDigit || ('a' ≤ c && c ≤ 'f')

/-- Whether the list contains a run of at least `k` consecutive characters
satisfying `pred` (the `{8,}` style regexes). -/
def hasRun (pred : Char → Bool) (k : Nat) : List Char → Bool
  | [] => k = 0
  | c :: cs => (pred c && k ≤ (List.takeWhile pred (c :: cs)).length) || hasRun pred k cs

/-- JS `s.match(/[0-9a-f]\x7b8,\x7d/i) !== null`. -/
def hasHexRun8CI (s : String) : Bool := hasRun isHexDigitCI 8 s.data

/-- JS `s.match(/[0-9a-f]\x7b8,\x7d/) !== null` (case-sensitive variant). -/
def hasHexRun8CS (s : String) : Bool := hasRun isHexDigitCS 8 s.data

/-- Fuel-bounded worker for `natHexDigits`. -/
def natHexDigitsAux : Nat → Nat → List Char
  | 0, _ => []
  | fuel + 1, n =>
    if n < 16 then [if n < 10 then Char.ofNat (48 + n) else Char.ofNat (87 + n)]
    else natHexDigitsAux fuel (n / 16) ++
      [if n % 16 < 10 then Char.ofNat (48 + n % 16) else Char.ofNat (87 + n % 16)]

/-- Lowercase hexadecimal digits of a number. -/
def natHexDigits (n : Nat) : List Char := natHexDigitsAux (n + 1) n

/-- Escape of one character under `CSS.escape`, given its index, the first
character of the string and the string length (the CSSOM serialization
algorithm). -/
def cssEscapeChar (c : Char) (idx : Nat) (first : Option Char) (len : Nat) :
    List Char :=
  if c.toNat = 0 then [Char.ofNat 0xFFFD]
  else if (1 ≤ c.toNat ∧ c.toNat ≤ 0x1F) ∨ c.toNat = 0x7F then
    '\\' :: natHexDigits c.toNat ++ [' ']
  else if idx = 0 ∧ 48 ≤ c.toNat ∧ c.toNat ≤ 57 then
    '\\' :: natHexDigits c.toNat ++ [' ']
  else if idx = 1 ∧ (48 ≤ c.toNat ∧ c.toNat ≤ 57) ∧ first = some '-' then
    '\\' :: natHexDigits c.toNat ++ [' ']
  else if idx = 0 ∧ c = '-' ∧ len = 1 then ['\\', '-']
  else if 0x80 ≤ c.toNat ∨ c = '-' ∨ c = '_' ∨
      (48 ≤ c.toNat ∧ c.toNat ≤ 57) ∨ (65 ≤ c.toNat ∧ c.toNat ≤ 90) ∨
      (97 ≤ c.toNat ∧ c.toNat ≤ 122) then [c]
  else ['\\', c]

/-- Model of `CSS.escape`. -/
def cssEscape (s : String) : String :=
  String.mk ((s.data.enum).flatMap fun ic =>
    cssEscapeChar ic.2 ic.1 s.data.head? s.data.length)

/-- Fuel-bounded worker for `collapseWs`. -/
def collapseWsAux : Nat → List Char → List Char
  | 0, l => l
  | fuel + 1, l =>
    match l with
    | [] => []
    | c :: cs =>
      if c.isWhitespace then
        ' ' :: collapseWsAux fuel (cs.dropWhile Char.isWhitespace)
      else c :: collapseWsAux fuel cs

/-- Maximal whitespace runs collapsed to single spaces
(`replace(/\s+/g, " ")`). -/
def collapseWs (l : List Char) : List Char := collapseWsAux (l.length + 1) l

/-- Text normalisation `normalizeText` in `locatorUtils.ts`: lowercase,
collapse whitespace, trim. -/
def normalizeText (s : String) : String :=
  jsTrim (String.mk (collapseWs (jsToLower s).data))

/-! ## Label association and form context (`locatorUtils.ts`, and the
identical in-page helpers of the puppeteer runner) -/

mutual

/-- Removal of the first form-field element (pre-order) inside a node. -/
def removeFFNode : DNode → DNode × Bool
  | .elem d cs =>
    match removeFirstFF cs with
    | (cs', r) => (.elem d cs', r)
  | .txt s => (.txt s, false)

/-- Removal of the first form-field element (pre-order) from a forest, as in
the `clone.querySelector("input, textarea, select")` / `input.remove()`
trick; the Bool reports whether a removal happened. -/
def removeFirstFF : List DNode → List DNode × Bool
  | [] => ([], false)
  | c :: rest =>
    match c with
    | .elem d cs =>
      if isFormFieldTag d.tag then (rest, true)
      else
        match removeFFNode c with
        | (c', true) => (c' :: rest, true)
        | (_, false) =>
          match removeFirstFF rest with
          | (rest', r) => (.elem d cs :: rest', r)
    | .txt s =>
      match removeFirstFF rest with
      | (rest', r) => (.txt s :: rest', r)

end

/-- Text of the label at `lp` with the label's first embedded form field
removed, trimmed (`clone.textContent?.trim()` after the removal). -/
def labelTextExcludingField (root : DNode) (lp : Path) : String :=
  jsTrim (nodesText (removeFirstFF (childrenAt root lp)).1)

/-- First `label` element with a `for` attribute equal to `id`
(`document.querySelector("label[for=...]")`; `CSS.escape` round-trips
through the CSS parser, so this is attribute equality on the raw id). -/
def labelFor? (root : DNode) (id : String) : Option Path :=
  (elemPaths root).find? (fun p =>
    tagAt root p == "label" && getAttrAt root p "for" == some id)

/-- Trimmed text at a path with the JS `|| null` collapse of `""`. -/
def trimmedTextOrNull (root : DNode) (p : Path) : Option String :=
  match getNode? root p with
  | some n => let t := jsTrim (nodeText n); if t = "" then none else some t
  | none => none

/-- Label text associated with the form field at `p`, trying in order
`label[for=id]`, enclosing label (with the field's own subtree stripped),
`aria-labelledby`, immediately preceding sibling label, and first label in
the parent not bound to a different field (`getAssociatedLabelTextForElement`
in `locatorUtils.ts`; the in-page `getAssociatedLabelText` of the puppeteer
runner has the same body behind an instanceof guard). -/
def assocLabelSteps (root : DNode) (p : Path) : Option String :=
  let elemId := (getAttrAt root p "id").getD ""
  -- 1. label[for="id"]
  match (if elemId ≠ "" then labelFor? root elemId else none) with
  | some lp => trimmedTextOrNull root lp
  | none =>
    -- 2. enclosing label, with the field's own subtree removed
    let step2 :=
      match closestTag? root "label" p with
      | some lp =>
        let t := labelTextExcludingField root lp
        if t ≠ "" then some t else none
      | none => none
    match step2 with
    | some t => some t
    | none =>
      -- 3. aria-labelledby
      match getAttrAt root p "aria-labelledby" with
      | some lby =>
        if lby ≠ "" then
          match getElementById? root lby with
          | some lp => trimmedTextOrNull root lp
          | none => assocLabelTail root p
        else assocLabelTail root p
      | none => assocLabelTail root p

where
  /-- Steps 4 and 5: preceding sibling label, then first label in parent. -/
  assocLabelTail (root : DNode) (p : Path) : Option String :=
    match prevElemSibling? root p with
    | some sib =>
      if tagAt root sib = "label" then trimmedTextOrNull root sib
      else assocLabelParent root p
    | none => assocLabelParent root p
  /-- Step 5: first label found in the parent, unless bound to another id. -/
  assocLabelParent (root : DNode) (p : Path) : Option String :=
    match parentPath? p with
    | some pp =>
      match firstDesc? root pp (fun d => d.tag == "label") with
      | some lp =>
        let forAttr := getAttrAt root lp "for"
        if forAttr = none ∨ forAttr = some "" ∨
            forAttr = some ((getAttrAt root p "id").getD "") then
          trimmedTextOrNull root lp
        else none
      | none => none
    | none => none

/-- Paths of all `form` elements in document order
(`document.querySelectorAll("form")`). -/
def formPaths (root : DNode) : List Path :=
  (elemPaths root).filter (fun p => tagAt root p == "form")

/-- Form fields `form.querySelectorAll("input, textarea, select")` of the
form at `fp`, document order. -/
def formFieldsOf (root : DNode) (fp : Path) : List Path :=
  (descPathsOf root fp).filter (fun q =>
    ((elemAt? root q).map (fun d => isFormFieldTag d.tag)).getD false)

/-- Form context of the element at `p` (`getFormContextForElement` in
`locatorUtils.ts`): the owning form's selector (id, else name, else up to two
stable classes, else nth-of-type among forms) and the 1-based index of the
element among the form's fields (`indexOf + 1`, hence `0` if not listed). -/
def getFormContextForElement (root : DNode) (p : Path) : Option FormContext :=
  match closestTag? root "form" p with
  | none => none
  | some fp =>
    let fid := (getAttrAt root fp "id").getD ""
    let formSelector :=
      if fid ≠ "" && !hasHexRun8CI fid then "#" ++ cssEscape fid
      else if truthy (getAttrAt root fp "name") then
        "form[name=\"" ++ (getAttrAt root fp "name").getD "" ++ "\"]"
      else
        let classes := (((elemAt? root fp).map (·.classes)).getD []).filter
          (fun c => !hasHexRun8CI c && !jsStartsWith c "_")
        if classes ≠ [] then
          "form." ++ String.intercalate "." ((classes.take 2).map cssEscape)
        else
          let idx := ((formPaths root).indexOf fp)
          "form:nth-of-type(" ++ natToStr (idx + 1) ++ ")"
    let fieldIndex :=
      match (formFieldsOf root fp).indexOf? p with
      | some i => i + 1
      | none => 0
    some { formSelector := formSelector, fieldIndex := fieldIndex }

/-- Form-field index of the element at `p` (`getFormFieldIndex` in the
puppeteer in-page script): position among the closest form's fields, 1-based,
`null` when there is no form or the element is not listed. -/
def getFormFieldIndex (root : DNode) (p : Path) : Option Nat :=
  match (elemAt? root p).map (·.svg) with
  | some false =>
    match closestTag? root "form" p with
    | none => none
    | some fp =>
      match (formFieldsOf root fp).indexOf? p with
      | some i => some (i + 1)
      | none => none
  | _ => none

/-! ## Roles and accessible names (`locatorUtils.ts`) -/

/-- Shared implicit-role table of the short role maps
(`getImplicitRoleForElement` in `locatorUtils.ts` lines 476-497 and the
identical `getImplicitRoleForElement` inside the puppeteer in-page script):
button/input/textarea/select only, with the input-`type` dispatch. -/
def shortImplicitRole (tag : String) (ty : Option String) : Option String :=
  let r : String :=
    if tag = "button" then "button"
    else if tag = "input" then
      match ty with
      | none => "textbox"
      | some t =>
        if t = "text" || t = "" then "textbox"
        else if t = "checkbox" then "checkbox"
        else if t = "radio" then "radio"
        else if t = "button" || t = "submit" then "button"
        else ""
    else if tag = "textarea" then "textbox"
    else if tag = "select" then "combobox"
    else ""
  if r = "" then none else some r

/-- Full implicit-role table (`getImplicitRole` in `locatorUtils.ts` lines
130-165), used by `findByText`/`findByRole`. -/
def getImplicitRole (d : ElemData) : Option String :=
  let ty := getAttr d.attrs "type"
  let r : String :=
    if d.tag = "a" then (if (getAttr d.attrs "href").isSome then "link" else "")
    else if d.tag = "button" then "button"
    else if d.tag = "input" then
      match ty with
      | none => "textbox"
      | some t =>
        if t = "text" || t = "" then "textbox"
        else if t = "checkbox" then "checkbox"
        else if t = "radio" then "radio"
        else if t = "button" || t = "submit" then "button"
        else ""
    else if d.tag = "textarea" then "textbox"
    else if d.tag = "select" then "combobox"
    else if d.tag = "img" then "img"
    else if d.tag = "h1" ∨ d.tag = "h2" ∨ d.tag = "h3" ∨ d.tag = "h4" ∨
        d.tag = "h5" ∨ d.tag = "h6" then "heading"
    else if d.tag = "nav" then "navigation"
    else if d.tag = "main" then "main"
    else if d.tag = "aside" then "complementary"
    else if d.tag = "header" then "banner"
    else if d.tag = "footer" then "contentinfo"
    else if d.tag = "section" then "region"
    else if d.tag = "article" then "article"
    else if d.tag = "form" then "form"
    else if d.tag = "table" then "table"
    else if d.tag = "ul" ∨ d.tag = "ol" then "list"
    else if d.tag = "li" then "listitem"
    else ""
  if r = "" then none else some r

/-- Accessible name of the element at `p` (`getAccessibleName` in
`locatorUtils.ts`): aria-label, aria-labelledby, associated label for form
controls, image alt, placeholder, title, then trimmed text content. -/
def getAccessibleName (root : DNode) (p : Path) : String :=
  let d := elemAt? root p
  match getAttrAt root p "aria-label" with
  | some al => if al ≠ "" then al else accNameRest root p d
  | none => accNameRest root p d
where
  /-- Steps 2-7 of `getAccessibleName`. -/
  accNameRest (root : DNode) (p : Path) (d : Option ElemData) : String :=
    let step2 :=
      match getAttrAt root p "aria-labelledby" with
      | some lby =>
        if lby ≠ "" then
          match getElementById? root lby with
          | some lp => some (jsTrim (nodeText ((getNode? root lp).getD (.txt ""))))
          | none => none
        else none
      | none => none
    match step2 with
    | some t => t
    | none =>
      let tag := ((d.map (·.tag)).getD "")
      let step3 :=
        if isFormFieldTag tag then
          let elemId := (getAttrAt root p "id").getD ""
          match (if elemId ≠ "" then labelFor? root elemId else none) with
          | some lp => some (jsTrim (nodeText ((getNode? root lp).getD (.txt ""))))
          | none =>
            match closestTag? root "label" p with
            | some lp => some (jsTrim (nodeText ((getNode? root lp).getD (.txt ""))))
            | none => none
        else none
      match step3 with
      | some t => t
      | none =>
        if tag = "img" then ((getAttrAt root p "alt").getD "")
        else
          match getAttrAt root p "placeholder" with
          | some ph =>
            if ph ≠ "" then ph else accNameLast root p
          | none => accNameLast root p
  /-- Steps 6 and 7 of `getAccessibleName`: title, then trimmed text. -/
  accNameLast (root : DNode) (p : Path) : String :=
    match getAttrAt root p "title" with
    | some t =>
      if t ≠ "" then t
      else jsTrim (nodeText ((getNode? root p).getD (.txt "")))
    | none => jsTrim (nodeText ((getNode? root p).getD (.txt "")))

/-! ## Visibility and interactability (`locatorUtils.ts`) -/

/-- Visibility predicate of `locatorUtils.ts` (`isVisible`): BODY/HTML are
always visible, otherwise the element must not be `display:none`,
`visibility:hidden` or `opacity:0`. -/
def isVisibleD (d : ElemData) : Bool :=
  if d.tag = "body" || d.tag = "html" then true
  else !(d.display == "none" || d.visibility == "hidden" || d.opacity == "0")

/-- Visibility of the node at a path (non-elements are never candidates). -/
def isVisibleAt (root : DNode) (p : Path) : Bool :=
  ((elemAt? root p).map isVisibleD).getD false

/-- Interactability predicate of `locatorUtils.ts` (`isInteractable`):
visible, not disabled for form controls and buttons, and not
`pointer-events:none`. -/
def isInteractableD (d : ElemData) : Bool :=
  isVisibleD d &&
  (if (isFormFieldTag d.tag || d.tag == "button") && !d.svg then !d.disabled
   else true) &&
  d.pointerEvents != "none"

/-- Interactability of the node at a path. -/
def isInteractableAt (root : DNode) (p : Path) : Bool :=
  ((elemAt? root p).map isInteractableD).getD false

/-! ## Metadata-based finders (`locatorUtils.ts`) -/

/-- Node at a path with a text-node default (only used under paths known to
exist). -/
def getNodeD (root : DNode) (p : Path) : DNode :=
  (getNode? root p).getD (.txt "")

/-- Number of element children of the node at `p` (`el.children.length`). -/
def elemChildCount (root : DNode) (p : Path) : Nat :=
  ((childrenAt root p).filter (fun c =>
    match c with
    | .elem _ _ => true
    | .txt _ => false)).length

/-- Concatenated text of the direct text-node children of the node at `p`. -/
def directText (root : DNode) (p : Path) : String :=
  ((childrenAt root p).map (fun c =>
    match c with
    | .txt s => s
    | .elem _ _ => "")).foldl (· ++ ·) ""

/-- Element text used by `findByText`: accessible name, else text content;
overridden by the direct text when the element has element children with
non-blank direct text. -/
def findByTextElementText (root : DNode) (p : Path) : String :=
  let base :=
    let an := getAccessibleName root p
    if an ≠ "" then an else nodeText (getNodeD root p)
  if elemChildCount root p > 0 then
    let dt := directText root p
    if jsTrim dt ≠ "" then dt else base
  else base

/-- Text-based finder `findByText` over the body's descendants, with the
`exact`/`normalize` matching modes and the optional role filter. -/
def findByText (root : DNode) (text : String) (exact normalize : Bool)
    (role : Option String) : List Path :=
  (strictDescPaths root).filter (fun p =>
    match elemAt? root p with
    | none => false
    | some d =>
      if d.svg then false
      else
        let roleOk :=
          if truthy role then
            let elementRole :=
              match getAttr d.attrs "role" with
              | some r => if r ≠ "" then some r else getImplicitRole d
              | none => getImplicitRole d
            elementRole == role
          else true
        if !roleOk then false
        else
          let elementText := findByTextElementText root p
          if normalize then normalizeText elementText == normalizeText text
          else if exact then jsTrim elementText == text
          else jsIncludes elementText text)

/-- Placeholder finder `findByPlaceholder`: attribute equality (exact) or
substring (`[placeholder*=...]`). -/
def findByPlaceholder (root : DNode) (text : String) (exact : Bool) :
    List Path :=
  (elemPaths root).filter (fun p =>
    match elemAt? root p with
    | none => false
    | some d =>
      if d.svg then false
      else
        match getAttr d.attrs "placeholder" with
        | some v => if exact then v == text else jsIncludes v text
        | none => false)

/-- Test-id finder `findByTestId`: first document element carrying the value
under `data-testid`, `data-test`, `data-cy` or `data-test-id`, in that
selector order. -/
def findByTestId (root : DNode) (testId : String) : Option Path :=
  let tryAttr := fun (name : String) =>
    match (elemPaths root).find? (fun p => getAttrAt root p name == some testId) with
    | some p => if ((elemAt? root p).map (·.svg)).getD true then none else some p
    | none => none
  match tryAttr "data-testid" with
  | some p => some p
  | none =>
    match tryAttr "data-test" with
    | some p => some p
    | none =>
      match tryAttr "data-cy" with
      | some p => some p
      | none => tryAttr "data-test-id"

/-- Label-text matching used by the label finders. -/
def labelMatches (root : DNode) (lp : Path) (text : String) (exact : Bool) :
    Bool :=
  let lt := jsTrim (nodeText (getNodeD root lp))
  if exact then lt == text else jsIncludes lt text

/-- Label finder `findByLabelText`: for every matching label, the element its
`for` attribute references, else the first form field inside the label. -/
def findByLabelText (root : DNode) (text : String) (exact : Bool) :
    List Path :=
  ((elemPaths root).filter (fun p => tagAt root p == "label")).foldl
    (fun acc lp =>
      if !labelMatches root lp text exact then acc
      else
        match getAttrAt root lp "for" with
        | some forAttr =>
          if forAttr ≠ "" then
            match getElementById? root forAttr with
            | some ip =>
              if ((elemAt? root ip).map (·.svg)).getD true then acc
              else acc ++ [ip]
            | none => acc
          else
            match firstDesc? root lp (fun d => isFormFieldTag d.tag) with
            | some ip => acc ++ [ip]
            | none => acc
        | none =>
          match firstDesc? root lp (fun d => isFormFieldTag d.tag) with
          | some ip => acc ++ [ip]
          | none => acc)
    []

/-- Part 2 of `findByLabelTextExtended`: form fields labelled by a previous
sibling label or a label in the same container. -/
def extendedLabelPart2 (root : DNode) (text : String) (exact : Bool) :
    List Path → List Path → List Path
  | [], acc => acc
  | p :: rest, acc =>
    if acc.contains p then extendedLabelPart2 root text exact rest acc
    else
      let prevSib := prevElemSibling? root p
      let acc1 :=
        match prevSib with
        | some sib =>
          if tagAt root sib == "label" && labelMatches root sib text exact then
            acc ++ [p]
          else acc
        | none => acc
      let acc2 :=
        match parentPath? p with
        | some pp =>
          if acc1.contains p then acc1
          else
            match firstDesc? root pp (fun d => d.tag == "label") with
            | some lp =>
              if some lp ≠ prevSib && labelMatches root lp text exact then
                acc1 ++ [p]
              else acc1
            | none => acc1
        | none => acc1
      extendedLabelPart2 root text exact rest acc2

/-- Extended label finder `findByLabelTextExtended`: the `findByLabelText`
matches (part 1 duplicates its logic verbatim in the source) followed by the
previous-sibling / same-container matches over all form fields. -/
def findByLabelTextExtended (root : DNode) (text : String) (exact : Bool) :
    List Path :=
  let part1 := findByLabelText root text exact
  let allInputs := (elemPaths root).filter (fun p =>
    isFormFieldTag (tagAt root p) &&
    !(((elemAt? root p).map (·.svg)).getD true))
  extendedLabelPart2 root text exact allInputs part1

/-! ## Candidate verification (`verifyWithMetadata`) -/

/-- Confidence score of one candidate against the metadata — the scoring
block of `verifyWithMetadata` in `locatorUtils.ts`: labelText +100/+50,
form-field index +80, placeholder +60, tag name +10, role +10 (no test-id
term). -/
def verifyScore (root : DNode) (md : LocatorMetadata) (p : Path) : Nat :=
  match elemAt? root p with
  | none => 0
  | some d =>
    let sLabel :=
      if truthy md.labelText && isFormFieldTag d.tag && !d.svg then
        let lbl := assocLabelSteps root p
        if lbl == md.labelText then 100
        else if truthy lbl && jsIncludes (lbl.getD "") (md.labelText.getD "")
          then 50 else 0
      else 0
    let sForm :=
      if md.formContext.isSome && !d.svg then
        match getFormContextForElement root p with
        | some ctx =>
          if some ctx.fieldIndex = (md.formContext.map (·.fieldIndex)) then 80
          else 0
        | none => 0
      else 0
    let sPlaceholder :=
      if truthy md.placeholder &&
          getAttr d.attrs "placeholder" == md.placeholder then 60 else 0
    let sTag := if truthy md.tagName && md.tagName == some d.tag then 10 else 0
    let sRole :=
      if truthy md.role then
        let implicitPart :=
          if !d.svg then shortImplicitRole d.tag (getAttr d.attrs "type")
          else none
        let elementRole :=
          match getAttr d.attrs "role" with
          | some r => if r ≠ "" then some r else implicitPart
          | none => implicitPart
        if elementRole == md.role then 10 else 0
      else 0
    sLabel + sForm + sPlaceholder + sTag + sRole

/-- Best-scoring fold of `verifyWithMetadata`: invisible candidates are
skipped, a strictly greater score replaces the best match. -/
def verifyFold (root : DNode) (md : LocatorMetadata) :
    List Path → Option Path → Int → Option Path × Int
  | [], bm, bs => (bm, bs)
  | p :: rest, bm, bs =>
    if !isVisibleAt root p then verifyFold root md rest bm bs
    else
      let s : Int := verifyScore root md p
      if s > bs then verifyFold root md rest (some p) s
      else verifyFold root md rest bm bs

/-- Modelled from `verifyWithMetadata` in `locatorUtils.ts`: without metadata
the first candidate is returned; otherwise the best-scoring visible candidate
when the best score reaches 50, else the first visible candidate. -/
def verifyWithMetadata (root : DNode) (candidates : List Path)
    (md : Option LocatorMetadata) : Option Path :=
  match md with
  | none => candidates.head?
  | some m =>
    let bms := verifyFold root m candidates none (-1)
    if bms.2 ≥ 50 then bms.1
    else candidates.find? (isVisibleAt root)

/-! ## Locator resolution (`findByLocator` / `waitForLocator`) -/

/-- A document: the body tree plus the browser's CSS engine for the
free-form selector strings of a locator (`none` models a selector on which
`querySelectorAll` throws). -/
structure Document where
  root : DNode
  queryAll : String → Option (List Path)

/-- Visible element candidates of one selector (the filter applied to
`document.querySelectorAll(selector)` in `findByLocator`). -/
def visibleCandidates (doc : Document) (sel : String) : Option (List Path) :=
  match doc.queryAll sel with
  | none => none
  | some paths => some (paths.filter (fun p =>
      (elemAt? doc.root p).isSome && isVisibleAt doc.root p))

/-- Selector phase of `findByLocator`: primary then fallbacks; a single
visible match is taken directly, several are arbitrated by
`verifyWithMetadata`, zero (or a throwing selector, or an unverified
multi-match) moves on. -/
def findBySelectors (doc : Document) (md : Option LocatorMetadata) :
    List String → Option Path
  | [] => none
  | sel :: rest =>
    match visibleCandidates doc sel with
    | none => findBySelectors doc md rest
    | some [] => findBySelectors doc md rest
    | some [p] => some p
    | some cands =>
      match verifyWithMetadata doc.root cands md with
      | some v => some v
      | none => findBySelectors doc md rest

/-- Metadata-only fuzzy phase of `findByLocator` (source lines 546-612):
labelText (extended, exact, preferring a matching tag name), then test-id,
then normalized text (role-filtered, preferring a matching tag name without
a visibility check), then exact placeholder, then `findByLabelText` keyed by
the `ariaLabel` metadata. -/
def fuzzyPhase (root : DNode) (md : LocatorMetadata) : Option Path :=
  let byLabel :=
    if truthy md.labelText then
      let els := findByLabelTextExtended root (md.labelText.getD "") true
      if els ≠ [] then
        let viaTag :=
          if truthy md.tagName then
            match els.find? (fun p => some (tagAt root p) == md.tagName) with
            | some mt => if isVisibleAt root mt then some mt else none
            | none => none
          else none
        match viaTag with
        | some mt => some mt
        | none =>
          match els.head? with
          | some e0 => if isVisibleAt root e0 then some e0 else none
          | none => none
      else none
    else none
  match byLabel with
  | some p => some p
  | none =>
    let byTestId :=
      if truthy md.testId then
        match findByTestId root (md.testId.getD "") with
        | some el => if isVisibleAt root el then some el else none
        | none => none
      else none
    match byTestId with
    | some p => some p
    | none =>
      let byText :=
        if truthy md.text then
          let els := findByText root (md.text.getD "") false true md.role
          let viaTag :=
            if truthy md.tagName then
              els.find? (fun p => some (tagAt root p) == md.tagName)
            else none
          match viaTag with
          | some mt => some mt
          | none =>
            match els.head? with
            | some e0 => if isVisibleAt root e0 then some e0 else none
            | none => none
        else none
      match byText with
      | some p => some p
      | none =>
        let byPlaceholder :=
          if truthy md.placeholder then
            match (findByPlaceholder root (md.placeholder.getD "") true).head? with
            | some e0 => if isVisibleAt root e0 then some e0 else none
            | none => none
          else none
        match byPlaceholder with
        | some p => some p
        | none =>
          if truthy md.ariaLabel then
            match (findByLabelText root (md.ariaLabel.getD "") true).head? with
            | some e0 => if isVisibleAt root e0 then some e0 else none
            | none => none
          else none

/-- Locator resolution `findByLocator`: primary, fallbacks, then the
metadata-only fuzzy phase. -/
def findByLocator (doc : Document) (loc : ElementLocator) : Option Path :=
  match findBySelectors doc loc.metadata (loc.primary :: loc.fallbacks) with
  | some p => some p
  | none =>
    match loc.metadata with
    | none => none
    | some md => fuzzyPhase doc.root md

/-- Polling loop of `waitForLocator`, in discrete time: `findByLocator` at
each poll, with the optional visibility/interactability re-checks; each
failed iteration sleeps one poll interval of 100 ms.  Returns the outcome and
the finishing instant.  The fuel argument only bounds the recursion; with
fuel `timeout / 100 + 1` it never runs out (the loop condition fires first). -/
def waitForLocatorAux (docAt : Nat → Document) (loc : ElementLocator)
    (vis inter : Bool) (timeout : Nat) :
    Nat → Nat → Except String Path × Nat
  | 0, t =>
    (.error ("Timeout waiting for element. Primary selector: " ++ loc.primary), t)
  | fuel + 1, t =>
    if t < timeout then
      match findByLocator (docAt t) loc with
      | some p =>
        if (vis && !isVisibleAt (docAt t).root p) ||
           (inter && !isInteractableAt (docAt t).root p) then
          waitForLocatorAux docAt loc vis inter timeout fuel (t + 100)
        else (.ok p, t)
      | none => waitForLocatorAux docAt loc vis inter timeout fuel (t + 100)
    else
      (.error ("Timeout waiting for element. Primary selector: " ++ loc.primary), t)

/-- Smart wait `waitForLocator` (default timeout 5000 ms, poll 100 ms). -/
def waitForLocator (docAt : Nat → Document) (loc : ElementLocator)
    (vis inter : Bool) (timeoutOpt : Option Nat) : Except String Path × Nat :=
  let timeout := match timeoutOpt with
    | some t => if t ≠ 0 then t else 5000
    | none => 5000
  waitForLocatorAux docAt loc vis inter timeout (timeout / 100 + 1) 0

/-! ## Puppeteer resolver (`PuppeteerFlowRunner.getElement` /
`pickBestCandidate` with its in-page evaluation script)

The remote page shares the `Document` shape: a body tree plus the CSS engine
answering `page.$$eval(selector, ...)` / `page.$$(selector)`. -/

/-- In-page visibility check of the puppeteer runner (`isVisible` inside
`$$eval`): style checks plus a non-empty `getClientRects()`, with no
BODY/HTML exemption. -/
def pIsVisibleD (d : ElemData) : Bool :=
  !(d.display == "none" || d.visibility == "hidden" || d.opacity == "0") &&
  d.hasClientRects

/-- In-page interactability check of the puppeteer runner. -/
def pIsInteractableD (d : ElemData) : Bool :=
  pIsVisibleD d &&
  (if (isFormFieldTag d.tag || d.tag == "button") && !d.svg then !d.disabled
   else true) &&
  d.pointerEvents != "none"

/-- Number of previous element siblings with the same tag. -/
def countSameTagBefore (cs : List DNode) (i : Nat) (tag : String) : Nat :=
  ((List.range i).filter (fun j =>
    match cs.get? j with
    | some (.elem d _) => d.tag == tag
    | _ => false)).length

/-- One `tag:nth-of-type(k)` segment of `getDomPath`. -/
def domPathSeg (root : DNode) (q : Path) (i : Nat) : String :=
  let tag := tagAt root (q ++ [i])
  tag ++ ":nth-of-type(" ++
    natToStr (countSameTagBefore (childrenAt root q) i tag + 1) ++ ")"

/-- Segments of `getDomPath` from the body down to the element. -/
def domPathParts (root : DNode) (q : Path) : Path → List String
  | [] => []
  | i :: rest => domPathSeg root q i :: domPathParts root (q ++ [i]) rest

/-- Structural path of an element up to (excluding) the body (`getDomPath`
in the in-page script), used as the dedup key across selectors. -/
def getDomPath (root : DNode) (p : Path) : String :=
  String.intercalate ">" (domPathParts root [] p)

/-- In-page `getAssociatedLabelText` of the puppeteer runner: the shared
label-association steps behind an explicit form-control guard. -/
def pAssocLabelText (root : DNode) (p : Path) : Option String :=
  match elemAt? root p with
  | some d =>
    if isFormFieldTag d.tag && !d.svg then assocLabelSteps root p else none
  | none => none

/-- In-page implicit role of the puppeteer runner
(`getImplicitRoleForElement` inside `$$eval`; the input `type` attribute is
only read on `HTMLInputElement`s). -/
def pImplicitRole (d : ElemData) : Option String :=
  shortImplicitRole d.tag
    (if d.tag = "input" && !d.svg then getAttr d.attrs "type" else none)

/-- Confidence score of the puppeteer runner (`calculateScore` inside
`$$eval`): test-id +120, labelText +100/+50, form-field index +90,
placeholder +70, aria-label +60, tag name +20, role +10. -/
def calculateScore (root : DNode) (p : Path) (md : Option LocatorMetadata) :
    Nat :=
  match md with
  | none => 0
  | some m =>
    match elemAt? root p with
    | none => 0
    | some d =>
      let isHTML := !d.svg
      let sTest :=
        if truthy m.testId && isHTML &&
            (getAttr d.attrs "data-testid" == m.testId ||
             getAttr d.attrs "data-test" == m.testId ||
             getAttr d.attrs "data-cy" == m.testId ||
             getAttr d.attrs "data-test-id" == m.testId) then 120 else 0
      let sLabel :=
        if truthy m.labelText then
          let lbl := pAssocLabelText root p
          if lbl == m.labelText then 100
          else if truthy lbl && jsIncludes (lbl.getD "") (m.labelText.getD "")
            then 50 else 0
        else 0
      let sForm :=
        if ((m.formContext.map (·.fieldIndex)).getD 0) ≠ 0 then
          if getFormFieldIndex root p == (m.formContext.map (·.fieldIndex))
            then 90 else 0
        else 0
      let sPh :=
        if truthy m.placeholder && isHTML &&
            getAttr d.attrs "placeholder" == m.placeholder then 70 else 0
      let sAria :=
        if truthy m.ariaLabel && isHTML &&
            getAttr d.attrs "aria-label" == m.ariaLabel then 60 else 0
      let sTag := if truthy m.tagName && m.tagName == some d.tag then 20 else 0
      let sRole :=
        if truthy m.role then
          let elementRole :=
            if isHTML then
              match getAttr d.attrs "role" with
              | some r => if r ≠ "" then some r else pImplicitRole d
              | none => pImplicitRole d
            else none
          if elementRole == m.role then 10 else 0
        else 0
      sTest + sLabel + sForm + sPh + sAria + sTag + sRole

/-- Candidate record produced by the in-page evaluation (`CandidateInfo`). -/
structure CandidateInfo where
  selector : String
  selectorOrder : Nat
  elementIndex : Nat
  score : Nat
  visible : Bool
  interactable : Bool
  domPath : String
deriving DecidableEq, Repr

/-- Evaluation of one selector on the page (`page.$$eval(selector, ...)`;
a throwing selector contributes nothing). -/
def evalSelector (page : Document) (md : Option LocatorMetadata)
    (order : Nat) (sel : String) : List CandidateInfo :=
  match page.queryAll sel with
  | none => []
  | some paths => paths.enum.map (fun ip =>
      { selector := sel, selectorOrder := order, elementIndex := ip.1,
        score := calculateScore page.root ip.2 md,
        visible := ((elemAt? page.root ip.2).map pIsVisibleD).getD false,
        interactable := ((elemAt? page.root ip.2).map pIsInteractableD).getD false,
        domPath := getDomPath page.root ip.2 })

/-- Insertion step of the `Map`-based dedup by structural dom path, keeping
the higher score (tie: the earlier-priority selector). -/
def insertCand (m : List (String × CandidateInfo)) (c : CandidateInfo) :
    List (String × CandidateInfo) :=
  if (m.find? (fun kv => kv.1 == c.domPath)).isSome then
    m.map (fun kv =>
      if kv.1 == c.domPath then
        if c.score > kv.2.score ||
            (c.score == kv.2.score && c.selectorOrder < kv.2.selectorOrder)
        then (kv.1, c) else kv
      else kv)
  else m ++ [(c.domPath, c)]

/-- Sort order of the final candidate ranking: higher score first, then
earlier selector, then earlier element index. -/
def candLE (a b : CandidateInfo) : Bool :=
  if a.score ≠ b.score then b.score < a.score
  else if a.selectorOrder ≠ b.selectorOrder then a.selectorOrder < b.selectorOrder
  else a.elementIndex ≤ b.elementIndex

/-- Ordered insertion used to model `Array.prototype.sort`. -/
def insertLE {α : Type} (le : α → α → Bool) (a : α) : List α → List α
  | [] => [a]
  | b :: bs => if le a b then a :: b :: bs else b :: insertLE le a bs

/-- Insertion sort modelling `Array.prototype.sort(comparator)`; on the
deduplicated candidate lists the comparator is a strict total order, so every
comparison sort (the engine's included) produces this unique result. -/
def insertionSort {α : Type} (le : α → α → Bool) : List α → List α
  | [] => []
  | a :: as => insertLE le a (insertionSort le as)

/-- Modelled from `pickBestCandidate`: evaluate every selector, keep
visible+interactable candidates, dedup by dom path, rank, and return the best
candidate together with the number of distinct candidates. -/
def pickBestCandidate (page : Document) (selectors : List String)
    (md : Option LocatorMetadata) : Option (CandidateInfo × Nat) :=
  let raw := (selectors.enum).flatMap (fun os => evalSelector page md os.1 os.2)
  let filtered := raw.filter (fun c => c.visible && c.interactable)
  if filtered.isEmpty then none
  else
    let deduped := filtered.foldl insertCand []
    let resolved := insertionSort candLE (deduped.map (·.2))
    match resolved.head? with
    | some best => some (best, resolved.length)
    | none => none

/-- Polling loop of `PuppeteerFlowRunner.getElement` in discrete time: a
unique candidate, or one whose score reaches `MIN_CONFIDENCE_SCORE = 80`, is
re-queried and returned; otherwise (ambiguous, nothing found, or the
re-query lost the element) the loop sleeps 100 ms and retries until
`timeout`; `none` models the final throw. -/
def getElementAux (pageAt : Nat → Document) (selectors : List String)
    (md : Option LocatorMetadata) (timeout : Nat) :
    Nat → Nat → Option Path × Nat
  | 0, t => (none, t)
  | fuel + 1, t =>
    if t < timeout then
      match pickBestCandidate (pageAt t) selectors md with
      | some (best, total) =>
        if total = 1 || best.score ≥ 80 then
          match (pageAt t).queryAll best.selector with
          | some paths =>
            match paths.get? best.elementIndex with
            | some p => (some p, t)
            | none => getElementAux pageAt selectors md timeout fuel (t + 100)
          | none => getElementAux pageAt selectors md timeout fuel (t + 100)
        else getElementAux pageAt selectors md timeout fuel (t + 100)
      | none => getElementAux pageAt selectors md timeout fuel (t + 100)
    else (none, t)

/-- Resolver `PuppeteerFlowRunner.getElement` over a locator. -/
def getElement (pageAt : Nat → Document) (loc : ElementLocator)
    (timeout : Nat) : Option Path × Nat :=
  getElementAux pageAt (loc.primary :: loc.fallbacks) loc.metadata timeout
    (timeout / 100 + 1) 0

/-! ## Step execution (`stepExecution.ts` and the per-backend `runStep`s)

Step records carry the fields the modelled code reads; side effects on the
page are modelled as an explicit action trace. -/

/-- Step record (the fields used by the modelled handlers). -/
structure Step where
  type : String
  locator : Option ElementLocator := none
  text : Option String := none
  originalText : Option String := none
  submit : Bool := false
  value : Option String := none
  prop : Option String := none
  timeoutMs : Option Nat := none
  url : Option String := none
  key : Option String := none

/-- Page side effects performed by a step handler. -/
inductive Action where
  | setValue (v : String)
  | dispatchEvent (name : String)
  | formRequestSubmit
  | formSubmit
  | keydownEnter
  | pressEnter
  | typeText (v : String)
  | fill (v : String)
deriving DecidableEq, Repr

/-- JS `a || b || ""` over two optional strings. -/
def jsOr (a b : Option String) : String :=
  if truthy a then a.getD "" else if truthy b then b.getD "" else ""

/-- Element lookup of `stepExecution.ts` (`findElement`): `waitForLocator`
with visibility and interactability required and timeout
`step.timeoutMs || 5000`; returns the element (or `none` on the caught
failure), the reported used selector, and the finish instant. -/
def findElement (docAt : Nat → Document) (step : Step) :
    Option Path × String × Nat :=
  match step.locator with
  | none => (none, "none", 0)
  | some loc =>
    match waitForLocator docAt loc true true step.timeoutMs with
    | (.ok p, t) => (some p, loc.primary, t)
    | (.error _, t) => (none, loc.primary, t)

/-- Type handler `executeTypeStep` of `stepExecution.ts`: requires a text
input, sets the resolved text (original text preferred over the masked one,
placeholders substituted), fires input/change, and on `submit` submits the
owning form (via `requestSubmit` when available) or synthesizes an Enter
keydown. -/
def executeTypeStep (docAt : Nat → Document) (reqSubmitAvailable : Bool)
    (step : Step) (options : RunnerOptions) : ExecutionResult × List Action :=
  if step.type ≠ "type" then
    ({ success := false, error := some "Invalid type step" }, [])
  else
    match findElement docAt step with
    | (none, used, _) =>
      ({ success := false,
         error := some ("Element not found with selector: " ++ used) }, [])
    | (some p, used, t) =>
      let root := (docAt t).root
      match elemAt? root p with
      | none =>
        ({ success := false, error := some "Element is not a text input",
           usedSelector := some used }, [])
      | some d =>
        if !((d.tag = "input" || d.tag = "textarea") && !d.svg) then
          ({ success := false, error := some "Element is not a text input",
             usedSelector := some used }, [])
        else if !isInteractableD d then
          ({ success := false,
             error := some ("Element is not interactable: " ++ used) }, [])
        else
          let rawText := jsOr step.originalText step.text
          let text := resolveText rawText options.varsMap
          let base : List Action :=
            [.setValue text, .dispatchEvent "input", .dispatchEvent "change"]
          let submitActs : List Action :=
            if step.submit then
              match closestTag? root "form" p with
              | some _ => if reqSubmitAvailable then [.formRequestSubmit]
                          else [.formSubmit]
              | none => [.keydownEnter]
            else []
          ({ success := true, usedSelector := some used }, base ++ submitActs)

/-! ### Extraction (`executeExtractStep` and `formatXml`) -/

/-- Tags whose elements expose a `value` property (the JS
`"value" in element` test). -/
def hasValueProp (t : String) : Bool :=
  t = "input" || t = "textarea" || t = "select" || t = "button" ||
  t = "option" || t = "li" || t = "meter" || t = "progress" ||
  t = "output" || t = "param" || t = "data"

/-- Stripping of an embedded base64 image source (`processImage`): the
`src` attribute is removed and `data-image-removed` is set. -/
def processImg (d : ElemData) : ElemData :=
  match getAttr d.attrs "src" with
  | some src =>
    if jsStartsWith src "data:image" then
      { d with attrs := (d.attrs.filter (fun kv => kv.1 ≠ "src")) ++
          [("data-image-removed", "true")] }
    else d
  | none => d

mutual

/-- Clone with every base64 `img` source stripped. -/
def stripBase64Node : DNode → DNode
  | .elem d cs =>
    .elem (if d.tag = "img" then processImg d else d) (stripBase64List cs)
  | .txt s => .txt s

/-- List version of `stripBase64Node`. -/
def stripBase64List : List DNode → List DNode
  | [] => []
  | c :: cs => stripBase64Node c :: stripBase64List cs

end

/-- Fuel-bounded worker for `stripInterTagWs`. -/
def stripInterTagWsAux : Nat → List Char → List Char
  | 0, l => l
  | fuel + 1, l =>
    match l with
    | [] => []
    | '>' :: rest =>
      if (rest.takeWhile Char.isWhitespace) ≠ [] then
        match rest.dropWhile Char.isWhitespace with
        | '<' :: tail => '>' :: '<' :: stripInterTagWsAux fuel tail
        | _ => '>' :: stripInterTagWsAux fuel rest
      else '>' :: stripInterTagWsAux fuel rest
    | c :: cs => c :: stripInterTagWsAux fuel cs

/-- Replacement of `>[whitespace]+<` by `><` (the first normalisation step
of `formatXml`). -/
def stripInterTagWs (l : List Char) : List Char :=
  stripInterTagWsAux (l.length + 1) l

/-- Negation of being the closing angle bracket. -/
def isNotGt (c : Char) : Bool := c != '>'

/-- Negation of being the opening angle bracket. -/
def isNotLt (c : Char) : Bool := c != '<'

/-- Fuel-bounded worker for `xmlTokens`. -/
def xmlTokensAux : Nat → List Char → List (List Char)
  | 0, _ => []
  | fuel + 1, l =>
    match l with
    | [] => []
    | c :: cs =>
      if c = '<' then
        let tag := cs.takeWhile isNotGt
        if tag ≠ [] ∧ (cs.dropWhile isNotGt).head? = some '>' then
          ('<' :: (tag ++ ['>'])) :: xmlTokensAux fuel (cs.dropWhile isNotGt).tail
        else xmlTokensAux fuel cs
      else
        ((c :: cs).takeWhile isNotLt) :: xmlTokensAux fuel (cs.dropWhile isNotLt)

/-- Tokenisation by the regex `<[^>]+>|[^<]+` (tags and text runs). -/
def xmlTokens (l : List Char) : List (List Char) :=
  xmlTokensAux (l.length + 1) l

/-- Indentation `tab.repeat(indent)` with a two-space tab. -/
def tabRepeat (n : Nat) : String := String.join (List.replicate n "  ")

/-- Classification-and-append fold of `formatXml`. -/
def formatXmlFold : List (List Char) → String → Nat → String
  | [], formatted, _ => formatted
  | tok :: rest, formatted, indent =>
    let tag := String.mk tok
    match tok with
    | '<' :: '/' :: _ =>
      let indent' := indent - 1
      formatXmlFold rest (formatted ++ "\n" ++ tabRepeat indent' ++ tag) indent'
    | '<' :: _ =>
      if (tok.getLast? = some '>' ∧ tok.length ≥ 2 ∧
          tok.get? (tok.length - 2) = some '/') ∨ tok.get? 1 = some '!' then
        formatXmlFold rest
          ((if formatted ≠ "" then formatted ++ "\n" else formatted) ++
            tabRepeat indent ++ tag) indent
      else if tok.getLast? = some '>' then
        formatXmlFold rest
          ((if formatted ≠ "" then formatted ++ "\n" else formatted) ++
            tabRepeat indent ++ tag) (indent + 1)
      else
        let text := jsTrim tag
        formatXmlFold rest
          (if text.length > 0 then formatted ++ text else formatted) indent
    | _ =>
      let text := jsTrim tag
      formatXmlFold rest
        (if text.length > 0 then formatted ++ text else formatted) indent

/-- Pretty printer `formatXml` of `stepExecution.ts`. -/
def formatXml (xml : String) : String :=
  let normalized := jsTrim (String.mk (stripInterTagWs xml.data))
  jsTrim (formatXmlFold (xmlTokens normalized.data) "" 0)

/-- Extract handler `executeExtractStep` of `stepExecution.ts`: `value` for
elements exposing it, trimmed text for `innerText` (and for any unknown
prop), and stripped/pretty-printed markup for `outerHTML`.  `serialize`
stands for the browser's `outerHTML` serializer. -/
def executeExtractStep (docAt : Nat → Document) (serialize : DNode → String)
    (step : Step) : ExecutionResult :=
  if step.type ≠ "extract" then
    { success := false, error := some "Invalid extract step" }
  else
    match findElement docAt step with
    | (none, used, _) =>
      { success := false,
        error := some ("Element not found with selector: " ++ used) }
    | (some p, used, t) =>
      let root := (docAt t).root
      let prop := if truthy step.prop then step.prop.getD "" else "innerText"
      let data :=
        match elemAt? root p with
        | none => ""
        | some d =>
          if prop = "value" && hasValueProp d.tag then d.value
          else if prop = "innerText" then jsTrim (nodeText (getNodeD root p))
          else if prop = "outerHTML" then
            formatXml (serialize (stripBase64Node (getNodeD root p)))
          else jsTrim (nodeText (getNodeD root p))
      { success := true, extractedData := some data, usedSelector := some used }

/-! ### Backend `runStep` type/extract cases -/

/-- Text chosen by the puppeteer `type` case:
`(step as any).originalText || step.text || ""`. -/
def puppeteerTypeText (step : Step) : String := jsOr step.originalText step.text

/-- Text chosen by the playwright `type` case:
`step.text || (step as any).originalText || ""` — the masked display text is
preferred and no placeholder substitution is applied. -/
def playwrightTypeText (step : Step) : String := jsOr step.text step.originalText

/-- Puppeteer `runStep`, `type` case: resolve via `getElement`, type the
resolved original-preferred text, and on `submit` press Enter on the page
keyboard (the owning form is never submitted). -/
def puppeteerRunStepType (pageAt : Nat → Document) (step : Step)
    (options : RunnerOptions) : ExecutionResult × List Action :=
  match step.locator with
  | none =>
    ({ success := false,
       error := some ("Step " ++ step.type ++ " requires a locator") }, [])
  | some loc =>
    let timeout := match options.timeout with
      | some n => if n ≠ 0 then n else 5000
      | none => 5000
    match getElement pageAt loc timeout with
    | (none, _) =>
      ({ success := false, error := some "Failed to resolve locator." }, [])
    | (some _, _) =>
      let text := resolveText (puppeteerTypeText step) options.varsMap
      ({ success := true },
        [.typeText text] ++ (if step.submit then [.pressEnter] else []))

/-- Puppeteer `runStep`, `extract` case: always
`el.evaluate(node => node.textContent)` trimmed — the step's `prop` is never
consulted. -/
def puppeteerRunStepExtract (pageAt : Nat → Document) (step : Step)
    (options : RunnerOptions) : ExecutionResult :=
  match step.locator with
  | none =>
    { success := false,
      error := some ("Step " ++ step.type ++ " requires a locator") }
  | some loc =>
    let timeout := match options.timeout with
      | some n => if n ≠ 0 then n else 5000
      | none => 5000
    match getElement pageAt loc timeout with
    | (none, _) =>
      { success := false, error := some "Failed to resolve locator." }
    | (some p, t) =>
      { success := true,
        extractedData := some (jsTrim (nodeText (getNodeD (pageAt t).root p))) }

/-- Playwright `runStep`, `type` case, with the racing `resolveLocator`
outcome abstracted: fill the masked-preferred text and on `submit` press
Enter on the locator. -/
def playwrightRunStepType (resolved : Option Path) (step : Step) :
    ExecutionResult × List Action :=
  match resolved with
  | none =>
    ({ success := false, error := some "Failed to resolve locator." }, [])
  | some _ =>
    ({ success := true },
      [.fill (playwrightTypeText step)] ++
        (if step.submit then [.pressEnter] else []))

/-! ## Locator generation (`src/unnamed/part_003`) -/

/-- ASCII letter. -/
def isAsciiLetter (c : Char) : Bool := c.isUpper || c.isLower

/-- CSS-in-JS class heuristics (`isCssInJsClass`): Emotion, styled-components,
CSS-module, long-hex and Chakra shapes. -/
def isCssInJsClass (cl : String) : Bool :=
  let l := cl.data
  let lLower := (jsToLower cl).data
  -- /^css-[a-z0-9]+$/i
  (match lLower with
   | 'c' :: 's' :: 's' :: '-' :: rest =>
     rest ≠ [] && rest.all (fun c => c.isLower || c.isDigit)
   | _ => false) ||
  -- /^sc-[a-zA-Z0-9]+$/
  (match l with
   | 's' :: 'c' :: '-' :: rest => rest ≠ [] && rest.all Char.isAlphanum
   | _ => false) ||
  -- /^_[a-zA-Z0-9_]+$/
  (match l with
   | '_' :: rest => rest ≠ [] && rest.all (fun c => c.isAlphanum || c = '_')
   | _ => false) ||
  -- /^[A-Z][a-zA-Z]+_[a-zA-Z]+__[a-zA-Z0-9]+$/
  (match l with
   | c :: rest =>
     c.isUpper &&
     (let r1 := rest.takeWhile isAsciiLetter
      r1 ≠ [] &&
      (match rest.dropWhile isAsciiLetter with
       | '_' :: rest2 =>
         let r2 := rest2.takeWhile isAsciiLetter
         r2 ≠ [] &&
         (match rest2.dropWhile isAsciiLetter with
          | '_' :: '_' :: rest3 => rest3 ≠ [] && rest3.all Char.isAlphanum
          | _ => false)
       | _ => false))
   | [] => false) ||
  -- /[0-9a-f]\x7b8,\x7d/i
  hasHexRun8CI cl ||
  -- /^chakra-/
  jsStartsWith cl "chakra-"

/-- Class-based selector (`generateClassSelector`): tag plus up to two stable
classes. -/
def generateClassSelector (d : ElemData) : Option String :=
  if d.classes = [] then none
  else
    let stable := d.classes.filter (fun c => !isCssInJsClass c)
    if stable ≠ [] then
      some (d.tag ++ String.join ((stable.take 2).map (fun c => "." ++ cssEscape c)))
    else none

/-- Position (1-based) of the element at index `i` among the element children
of `cs` sharing its tag, when more than one shares it. -/
def nthOfTypeSuffix (cs : List DNode) (i : Nat) (tag : String) : String :=
  let sameIdxs := (List.range cs.length).filter (fun j =>
    match cs.get? j with
    | some (.elem d _) => d.tag == tag
    | _ => false)
  if sameIdxs.length > 1 then
    match sameIdxs.indexOf? i with
    | some k => ":nth-of-type(" ++ natToStr (k + 1) ++ ")"
    | none => ""
  else ""

/-- Segments of `makeSelector` in processing order (element first, then
ancestors), with the depth 5 budget and the break on an id. -/
def makeSelectorParts (root : DNode) : Path → Nat → List String
  | _, 0 => []
  | p, rem + 1 =>
    match elemAt? root p with
    | none => []
    | some d =>
      let id := (getAttr d.attrs "id").getD ""
      if id ≠ "" then [d.tag ++ "#" ++ cssEscape id]
      else
        let s :=
          match getAttr d.attrs "data-testid" with
          | some tid =>
            if tid ≠ "" then d.tag ++ "[data-testid=\"" ++ tid ++ "\"]"
            else makeSelectorPlainSeg root p d
          | none =>
            match getAttr d.attrs "aria-label" with
            | some aria =>
              if aria ≠ "" then d.tag ++ "[aria-label=\"" ++ aria ++ "\"]"
              else makeSelectorPlainSeg root p d
            | none => makeSelectorPlainSeg root p d
        s :: (match parentPath? p with
              | some pp => makeSelectorParts root pp rem
              | none => [])

where
  /-- Segment without identity attributes: tag plus an `nth-of-type` index
  when several same-tag siblings exist. -/
  makeSelectorPlainSeg (root : DNode) (p : Path) (d : ElemData) : String :=
    match parentPath? p, p.getLast? with
    | some pp, some i => d.tag ++ nthOfTypeSuffix (childrenAt root pp) i d.tag
    | _, _ => d.tag

/-- Join with the `>` combinator (`Array.prototype.join(">")`). -/
def joinGt : List String → String
  | [] => ""
  | [s] => s
  | s :: rest => s ++ ">" ++ joinGt rest

/-- Structural selector `makeSelector`: up to five ancestor segments joined
by `>`, topmost first. -/
def makeSelector (root : DNode) (p : Path) : String :=
  joinGt (makeSelectorParts root p 5).reverse

/-- First truthy test-id attribute (`getTestId`). -/
def getTestId (d : ElemData) : Option String :=
  let pick := fun (name : String) =>
    match getAttr d.attrs name with
    | some v => if v ≠ "" then some v else none
    | none => none
  match pick "data-testid" with
  | some v => some v
  | none =>
    match pick "data-test" with
    | some v => some v
    | none =>
      match pick "data-cy" with
      | some v => some v
      | none => pick "data-test-id"

/-- Role inference of the generator (`inferRole` in `part_003`): explicit
`role` attribute first, else a tag map in which an input's role is its
`type` value (except `text`, which is `textbox`). -/
def inferRole (d : ElemData) : Option String :=
  match getAttr d.attrs "role" with
  | some r => if r ≠ "" then some r else inferRoleImplicit d
  | none => inferRoleImplicit d
where
  /-- Implicit part of `inferRole`. -/
  inferRoleImplicit (d : ElemData) : Option String :=
    let ty := getAttr d.attrs "type"
    let r : String :=
      if d.tag = "button" then "button"
      else if d.tag = "a" then "link"
      else if d.tag = "input" then
        match ty with
        | none => "textbox"
        | some t => if t = "text" then "textbox"
                    else if t ≠ "" then t else "textbox"
      else if d.tag = "textarea" then "textbox"
      else if d.tag = "select" then "combobox"
      else if d.tag = "img" then "img"
      else if d.tag = "h1" ∨ d.tag = "h2" ∨ d.tag = "h3" ∨ d.tag = "h4" ∨
          d.tag = "h5" ∨ d.tag = "h6" then "heading"
      else ""
    if r = "" then none else some r

/-- Visible text of an element (`getVisibleText`): value/placeholder for
inputs, alt for images, else the direct text trimmed and truncated to 50
characters. -/
def getVisibleText (root : DNode) (p : Path) : String :=
  match elemAt? root p with
  | none => ""
  | some d =>
    if (d.tag = "input" || d.tag = "textarea") && !d.svg then
      jsOr (some d.value) (getAttr d.attrs "placeholder")
    else if d.tag = "img" && !d.svg then (getAttr d.attrs "alt").getD ""
    else
      let t := jsTrim (directText root p)
      if t.length > 50 then String.mk (t.data.take 50) else t

/-- Form context of the generator (`getFormContext` in `part_003`): like the
resolver's but using `generateClassSelector` for the class branch. -/
def getFormContext (root : DNode) (p : Path) : Option FormContext :=
  match closestTag? root "form" p with
  | none => none
  | some fp =>
    let fd := (elemAt? root fp).getD { tag := "form" }
    let fid := (getAttr fd.attrs "id").getD ""
    let formSelector :=
      if fid ≠ "" && !hasHexRun8CI fid then "#" ++ cssEscape fid
      else if truthy (getAttr fd.attrs "name") then
        "form[name=\"" ++ (getAttr fd.attrs "name").getD "" ++ "\"]"
      else
        match generateClassSelector fd with
        | some cs => cs
        | none =>
          "form:nth-of-type(" ++
            natToStr (((formPaths root).indexOf fp) + 1) ++ ")"
    let fieldIndex :=
      match (formFieldsOf root fp).indexOf? p with
      | some i => i + 1
      | none => 0
    some { formSelector := formSelector, fieldIndex := fieldIndex }

/-- Dedup preserving first occurrences (`Array.from(new Set(...))`). -/
def jsDedup : List String → List String :=
  go []
where
  /-- Accumulating worker of `jsDedup`. -/
  go (seen : List String) : List String → List String
    | [] => []
    | x :: xs => if seen.contains x then go seen xs else x :: go (x :: seen) xs

/-- The ordered selector candidates pushed by `generateRobustLocator`. -/
def robustSelectors (root : DNode) (p : Path) : List String :=
  let d := (elemAt? root p).getD { tag := "" }
  let tag := d.tag
  let selTest :=
    match getTestId d with
    | some tid => ["[data-testid=\"" ++ tid ++ "\"]"]
    | none => []
  let id := (getAttr d.attrs "id").getD ""
  let selId :=
    if id ≠ "" && !hasHexRun8CS id then ["#" ++ cssEscape id] else []
  let selName :=
    match getAttr d.attrs "name" with
    | some nm => if nm ≠ "" then [tag ++ "[name=\"" ++ nm ++ "\"]"] else []
    | none => []
  let selAria :=
    match getAttr d.attrs "aria-label" with
    | some ar => if ar ≠ "" then ["[aria-label=\"" ++ ar ++ "\"]"] else []
    | none => []
  let selPh :=
    match getAttr d.attrs "placeholder" with
    | some ph => if ph ≠ "" then [tag ++ "[placeholder=\"" ++ ph ++ "\"]"] else []
    | none => []
  let selTitle :=
    match getAttr d.attrs "title" with
    | some ti => if ti ≠ "" then [tag ++ "[title=\"" ++ ti ++ "\"]"] else []
    | none => []
  let selAlt :=
    if tag = "img" && !d.svg && ((getAttr d.attrs "alt").getD "") ≠ "" then
      ["img[alt=\"" ++ ((getAttr d.attrs "alt").getD "") ++ "\"]"]
    else []
  let selForm :=
    if isFormFieldTag tag && !d.svg then
      match getFormContext root p with
      | some fc =>
        [fc.formSelector ++ " input, " ++ fc.formSelector ++ " textarea, " ++
          fc.formSelector ++ " select"]
      | none => []
    else []
  let selClass :=
    match generateClassSelector d with
    | some cs => [cs]
    | none => []
  let selStruct :=
    let st := makeSelector root p
    if st ≠ "" then [st] else []
  selTest ++ selId ++ selName ++ selAria ++ selPh ++ selTitle ++ selAlt ++
    selForm ++ selClass ++ selStruct

/-- Metadata bag built by `generateRobustLocator`. -/
def robustMetadata (root : DNode) (p : Path) : LocatorMetadata :=
  let d := (elemAt? root p).getD { tag := "" }
  let text := getVisibleText root p
  { tagName := some d.tag
    testId := getTestId d
    ariaLabel :=
      match getAttr d.attrs "aria-label" with
      | some ar => if ar ≠ "" then some ar else none
      | none => none
    role := inferRole d
    text := if text ≠ "" then some text else none
    placeholder :=
      match getAttr d.attrs "placeholder" with
      | some ph => if ph ≠ "" then some ph else none
      | none => none
    title :=
      match getAttr d.attrs "title" with
      | some ti => if ti ≠ "" then some ti else none
      | none => none
    labelText :=
      if isFormFieldTag d.tag && !d.svg then
        match assocLabelSteps root p with
        | some lt => if lt ≠ "" then some lt else none
        | none => none
      else none
    formContext :=
      if isFormFieldTag d.tag && !d.svg then getFormContext root p else none }

/-- Locator generator `generateRobustLocator`: primary is the first candidate
(falling back to the structural selector), fallbacks are the deduplicated
remaining candidates. -/
def generateRobustLocator (root : DNode) (p : Path) : ElementLocator :=
  let selectors := robustSelectors root p
  let structuralSelector := makeSelector root p
  let primary :=
    match selectors.head? with
    | some s => if s = "" then structuralSelector else s
    | none => structuralSelector
  { primary := primary
    fallbacks := jsDedup selectors.tail
    metadata := some (robustMetadata root p) }

/-! ## Specification-side definitions

These definitions follow the wording of the specification claims (not the
source); the refinement theorems compare them with the source embeddings. -/

/-- Metadata whose optional string fields carry no empty strings (the
claims speak of matches against actual metadata values; the code treats a
present-but-empty field as absent). -/
def mdWellFormed (m : LocatorMetadata) : Prop :=
  m.testId ≠ some "" ∧ m.labelText ≠ some "" ∧ m.placeholder ≠ some "" ∧
  m.ariaLabel ≠ some "" ∧ m.tagName ≠ some "" ∧ m.role ≠ some ""

instance : DecidablePred mdWellFormed := fun m => by
  unfold mdWellFormed
  infer_instance

/-- Claimed test-id attribute match: some test-id attribute of the element
equals the metadata's test id. -/
def claimedTestIdMatch (d : ElemData) (m : LocatorMetadata) : Bool :=
  match m.testId with
  | some v =>
    !d.svg && (getAttr d.attrs "data-testid" == some v ||
      getAttr d.attrs "data-test" == some v ||
      getAttr d.attrs "data-cy" == some v ||
      getAttr d.attrs "data-test-id" == some v)
  | none => false

/-- Claimed labelText contribution: +100 for an exact associated-label match,
+50 for a substring match. -/
def claimedLabelScore (root : DNode) (p : Path) (m : LocatorMetadata) : Nat :=
  match m.labelText with
  | some v =>
    let lbl := pAssocLabelText root p
    if lbl = some v then 100
    else if (match lbl with
             | some l => l ≠ "" && jsIncludes l v
             | none => false) then 50
    else 0
  | none => 0

/-- Claimed exact form-field-index match. -/
def claimedFieldIndexMatch (root : DNode) (p : Path) (m : LocatorMetadata) :
    Bool :=
  match m.formContext with
  | some fc => getFormFieldIndex root p == some fc.fieldIndex
  | none => false

/-- Claimed exact placeholder match. -/
def claimedPlaceholderMatch (d : ElemData) (m : LocatorMetadata) : Bool :=
  match m.placeholder with
  | some v => !d.svg && getAttr d.attrs "placeholder" == some v
  | none => false

/-- Claimed exact placeholder match as scored by the in-page backend (no
HTMLElement guard there). -/
def domClaimedPlaceholderMatch (d : ElemData) (m : LocatorMetadata) : Bool :=
  match m.placeholder with
  | some v => getAttr d.attrs "placeholder" == some v
  | none => false

/-- Claimed exact ariaLabel match. -/
def claimedAriaMatch (d : ElemData) (m : LocatorMetadata) : Bool :=
  match m.ariaLabel with
  | some v => !d.svg && getAttr d.attrs "aria-label" == some v
  | none => false

/-- Claimed tag-name match. -/
def claimedTagMatch (d : ElemData) (m : LocatorMetadata) : Bool :=
  match m.tagName with
  | some v => v == d.tag
  | none => false

/-- Claimed role match (explicit role attribute, else the implicit role). -/
def claimedRoleMatch (d : ElemData) (m : LocatorMetadata) : Bool :=
  match m.role with
  | some v =>
    (if !d.svg then
      match getAttr d.attrs "role" with
      | some r => if r ≠ "" then some r else pImplicitRole d
      | none => pImplicitRole d
     else none) == some v
  | none => false

/-- Modelled from the claim wording (spec §4.2 step 4): the confidence score
as the sum of the advertised weights — test-id +120, labelText +100/+50,
form-field index +90, placeholder +70, ariaLabel +60, tag name +20,
role +10. -/
def claimedScore (root : DNode) (p : Path) (m : LocatorMetadata) : Nat :=
  match elemAt? root p with
  | none => 0
  | some d =>
    (if claimedTestIdMatch d m then 120 else 0) +
    claimedLabelScore root p m +
    (if claimedFieldIndexMatch root p m then 90 else 0) +
    (if claimedPlaceholderMatch d m then 70 else 0) +
    (if claimedAriaMatch d m then 60 else 0) +
    (if claimedTagMatch d m then 20 else 0) +
    (if claimedRoleMatch d m then 10 else 0)

/-- Claimed labelText contribution of the in-page backend (form fields
only). -/
def domClaimedLabelScore (root : DNode) (p : Path) (d : ElemData)
    (m : LocatorMetadata) : Nat :=
  match m.labelText with
  | some v =>
    if isFormFieldTag d.tag && !d.svg then
      let lbl := assocLabelSteps root p
      if lbl = some v then 100
      else if (match lbl with
               | some l => l ≠ "" && jsIncludes l v
               | none => false) then 50
      else 0
    else 0
  | none => 0

/-- The actual weight table of the in-page backend, stated spec-side for the
amended claim: labelText +100/+50 (form fields only), form-field index +80,
placeholder +60, tag name +10, role +10, and no test-id contribution. -/
def domClaimedScore (root : DNode) (p : Path) (m : LocatorMetadata) : Nat :=
  match elemAt? root p with
  | none => 0
  | some d =>
    let fiMatch : Bool :=
      match m.formContext with
      | some fc =>
        !d.svg &&
          ((getFormContextForElement root p).map (·.fieldIndex) == some fc.fieldIndex)
      | none => false
    let roleMatch : Bool :=
      match m.role with
      | some v =>
        (match getAttr d.attrs "role" with
         | some r => if r ≠ "" then some r
                     else if !d.svg then
                       shortImplicitRole d.tag (getAttr d.attrs "type")
                     else none
         | none => if !d.svg then
                     shortImplicitRole d.tag (getAttr d.attrs "type")
                   else none) == some v
      | none => false
    domClaimedLabelScore root p d m +
    (if fiMatch then 80 else 0) +
    (if domClaimedPlaceholderMatch d m then 60 else 0) +
    (if claimedTagMatch d m then 10 else 0) +
    (if roleMatch then 10 else 0)

/-- Data collected by a run over step results starting at index `k`, keyed
`step_<i>` (the spec-side description of the aggregate `extractedData`). -/
def collectedDataFrom (k : Nat) : List ExecutionResult → List (String × String)
  | [] => []
  | r :: rs =>
    (match r.extractedData with
     | some d => if d ≠ "" then [(stepKey k, d)] else []
     | none => []) ++ collectedDataFrom (k + 1) rs

/-- Data collected by a run, keyed from `step_0`. -/
def collectedData (rs : List ExecutionResult) : List (String × String) :=
  collectedDataFrom 0 rs

/-! ## Well-formedness of documents (for the generator invariants)

Tag names and the attribute/class values that are interpolated into
selectors are restricted to plain identifier-like strings (ASCII letters,
digits, dashes and underscores, starting with a letter); this keeps
`CSS.escape` the identity and rules out values that would themselves spell
selector syntax. -/

/-- Characters allowed in interpolated values. -/
def simpleChar (c : Char) : Bool :=
  (48 ≤ c.toNat && c.toNat ≤ 57) || (65 ≤ c.toNat && c.toNat ≤ 90) ||
  (97 ≤ c.toNat && c.toNat ≤ 122) || c = '-' || c = '_'

/-- Characters allowed in tag names. -/
def tagChar (c : Char) : Bool :=
  (97 ≤ c.toNat && c.toNat ≤ 122) || (48 ≤ c.toNat && c.toNat ≤ 57) || c = '-'

/-- ASCII letters. -/
def asciiLetter (c : Char) : Bool :=
  (65 ≤ c.toNat && c.toNat ≤ 90) || (97 ≤ c.toNat && c.toNat ≤ 122)

/-- Identifier-like value: simple characters, starting with a letter (or
empty). -/
def idLike (s : String) : Bool :=
  s.data.all simpleChar &&
  (match s.data with
   | c :: _ => asciiLetter c
   | [] => true)

/-- Tag-like string: non-empty and made of tag characters. -/
def tagLike (s : String) : Bool := !s.isEmpty && s.data.all tagChar

/-- Well-formed element: tag-like tag, identifier-like attribute values and
class names. -/
def wfElem (d : ElemData) : Bool :=
  tagLike d.tag && d.attrs.all (fun kv => idLike kv.2) && d.classes.all idLike

mutual

/-- Well-formed tree: every element is well-formed. -/
def wfNode : DNode → Bool
  | .elem d cs => wfElem d && wfList cs
  | .txt _ => true

/-- Well-formed forest. -/
def wfList : List DNode → Bool
  | [] => true
  | c :: cs => wfNode c && wfList cs

end

/-! ## Shape classification of generated selector strings

Every candidate string pushed by `generateRobustLocator` on a well-formed
tree falls into a distinct shape class, read off the string itself; the
classes are numbered in the order the generator pushes them, which yields
the pairwise distinctness of the candidate list. -/

/-- Classification of a tag-prefixed selector by the first characters after
the tag. -/
def classifyTail (r : List Char) : Nat :=
  if r.head? = some '[' then
    if r.tail.head? = some 'n' then 2
    else if r.tail.head? = some 'p' then 4
    else if r.tail.head? = some 't' then 5
    else if r.tail.head? = some 'a' then
      if r.tail.tail.head? = some 'l' then 6 else 10
    else 11
  else if r.head? = some '.' then 8
  else if r.head? = some '#' then 12
  else if r.head? = some ':' then 13
  else if r = [] then 14
  else 15

/-- Shape class of a generated selector string. -/
def classify (s : String) : Nat :=
  if s.data.any (fun c => c = ' ') then 7
  else if s.data.head? = some '[' then
    if s.data.tail.head? = some 'd' then 0
    else if s.data.tail.head? = some 'a' then 3
    else 16
  else if s.data.head? = some '#' then 1
  else if s.data.any (fun c => c = '>') then 9
  else classifyTail (s.data.dropWhile tagChar)

/-! ## Concrete instances used by counterexamples and witnesses -/

/-- Document used by several counterexamples: a body with two plain visible
`div`s, an `input` with placeholder `p`, and an element carrying
`aria-label` `X`; none of them has any label. -/
def cexBody : DNode :=
  .elem { tag := "body" }
    [ .elem { tag := "div" } [.txt "row"],
      .elem { tag := "div" } [.txt "row"],
      .elem { tag := "input", attrs := [("placeholder", "p")] } [],
      .elem { tag := "span", attrs := [("aria-label", "X")] } [.txt "star"] ]

/-- CSS engine of the counterexample documents: the selector `div.row`
matches the two divs, anything else matches nothing. -/
def cexQueryAll (sel : String) : Option (List Path) :=
  if sel = "div.row" then some [[0], [1]] else some []

/-- The counterexample document. -/
def cexDoc : Document := { root := cexBody, queryAll := cexQueryAll }

/-- A document whose CSS engine answers nothing on every selector (for the
timeout witnesses). -/
def emptyDoc : Document :=
  { root := .elem { tag := "body" } [], queryAll := fun _ => some [] }

/-- Locator of the ambiguity counterexample: `div.row` matches two
identical divs and the metadata names a different tag, so every candidate
scores 0. -/
def cexLoc : ElementLocator :=
  { primary := "div.row", fallbacks := [],
    metadata := some { tagName := some "span" } }

/-- Well-formed page used by the locator-generation witness: a form with id
`f` containing one named input. -/
def genBody : DNode :=
  .elem { tag := "body" }
    [ .elem { tag := "form", attrs := [("id", "f")] }
        [ .elem { tag := "input",
                  attrs := [("name", "q"), ("placeholder", "p")] } [] ] ]

/-- Step results of the stop-on-error scenario: step 0 extracts `d0`,
step 1 fails, step 2 would extract `d2`. -/
def cexRunResults : List ExecutionResult :=
  [ { success := true, extractedData := some "d0" },
    { success := false, error := some "boom" },
    { success := true, extractedData := some "d2" } ]

/-- Page for the extract counterexample: a body holding one interactable
input whose current value is `abc` and whose text content is empty. -/
def extractBody : DNode :=
  .elem { tag := "body" }
    [ .elem { tag := "input", attrs := [("id", "fld")], value := "abc" } [] ]

/-- CSS engine of the extract counterexample: `#fld` matches the input. -/
def extractDoc : Document :=
  { root := extractBody,
    queryAll := fun sel => if sel = "#fld" then some [[0]] else some [] }

/-- Locator of the extract counterexample. -/
def extractLoc : ElementLocator := { primary := "#fld", fallbacks := [] }

/-- The extract step with `prop:"value"`. -/
def extractStep : Step :=
  { type := "extract", locator := some extractLoc, prop := some "value" }

/-- The type step of the submit scenario: masked text, original text,
submit set. -/
def typeStep : Step :=
  { type := "type", locator := some extractLoc, text := some "******",
    originalText := some "secret", submit := true }

/-- Page environment on a blank page whose navigation always fails. -/
def blankFailEnv : PageEnv :=
  { initialUrl := "about:blank",
    gotoError := fun _ => some "net::ERR_NAME_NOT_RESOLVED" }

/-- First step of the implicit-navigation scenario: a click step carrying a
URL. -/
def implicitNavSteps : List RunStepView :=
  [ { type := "click", url := some "https://example.com/start" } ]

/-- Step results of the implicit-navigation scenario: the single click step
succeeds. -/
def implicitNavResults : List ExecutionResult := [ { success := true } ]

/-- Body of the submit scenario: a single-field form. -/
def typeFormBody : DNode :=
  .elem { tag := "body" }
    [ .elem { tag := "form" }
        [ .elem { tag := "input", attrs := [("id", "fld")] } [] ] ]

/-- Document of the submit scenario (`#fld` matches the form's input). -/
def typeFormDoc : Document :=
  { root := typeFormBody,
    queryAll := fun sel => if sel = "#fld" then some [[0, 0]] else some [] }

/-! ## Helper lemmas -/

/-- The shared run loop aborts at the first failing step, reporting its
error, its absolute index, and the data collected before it. -/
theorem runAux_fail :
    ∀ (rs : List ExecutionResult) (i k : Nat) (acc : List (String × String))
      (rFail : ExecutionResult),
      (∀ r ∈ rs.take i, r.success = true) →
      rs.get? i = some rFail → rFail.success = false →
      runAux true k acc rs =
        { success := false, error := rFail.error,
          failedStepIndex := some (k + i),
          extractedData := acc.reverse ++ collectedDataFrom k (rs.take i) }
  | [], i, k, acc, rFail, _, hget, _ => by simp at hget
  | r :: rest, 0, k, acc, rFail, _, hget, hfail => by
    simp at hget
    subst hget
    simp [runAux, hfail, collectedDataFrom]
  | r :: rest, i + 1, k, acc, rFail, hbefore, hget, hfail => by
    have hr : r.success = true := hbefore r (by simp)
    have ih := runAux_fail rest i (k + 1)
      (match r.extractedData with
        | some d => if d ≠ "" then (stepKey k, d) :: acc else acc
        | none => acc) rFail
      (fun x hx => hbefore x (by simp [hx])) (by simpa using hget) hfail
    rw [runAux, if_neg (by simp [hr])]
    rw [ih]
    have hidx : k + 1 + i = k + (i + 1) := by omega
    have hacc :
        (match r.extractedData with
          | some d => if d ≠ "" then (stepKey k, d) :: acc else acc
          | none => acc).reverse =
        acc.reverse ++
          (match r.extractedData with
            | some d => if d ≠ "" then [(stepKey k, d)] else []
            | none => []) := by
      cases hd : r.extractedData with
      | none => simp
      | some d =>
        by_cases hde : d = "" <;> simp [hde]
    simp only [List.take, collectedDataFrom, hidx, hacc, List.append_assoc]

/-! ## Claim C5 -/

/-- Claim C5, counterexample: in the 3-step scenario with step 1 failing,
the partial data is keyed `step_0`, not `0` as the claim's
`extractedData: \x7b "0": <step0 data> \x7d` requires. -/
theorem claim_C5_counterexample :
    puppeteerRunLoop {} cexRunResults =
      { success := false, error := some "boom", failedStepIndex := some 1,
        extractedData := [("step_0", "d0")] } ∧
    (puppeteerRunLoop {} cexRunResults).extractedData ≠ [("0", "d0")] := by
  constructor
  · decide
  · decide

/-- Claim C5 as amended: with `stopOnError` not disabled, a run whose steps
before `i` all succeed and whose step `i` fails aborts with
`success = false`, `failedStepIndex = i`, and exactly the data of the
successful steps before `i`, keyed `step_<j>` (not by the bare index). -/
theorem claim_C5_amended (options : RunnerOptions)
    (results : List ExecutionResult) (i : Nat) (rFail : ExecutionResult)
    (hstop : options.stopOnError ≠ some false)
    (hbefore : ∀ r ∈ results.take i, r.success = true)
    (hget : results.get? i = some rFail) (hfail : rFail.success = false) :
    puppeteerRunLoop options results =
      { success := false, error := rFail.error, failedStepIndex := some i,
        extractedData := collectedData (results.take i) } := by
  have hb : (options.stopOnError != some false) = true := by
    cases ho : options.stopOnError with
    | none => rfl
    | some b =>
      cases b with
      | false => exact absurd ho hstop
      | true => rfl
  unfold puppeteerRunLoop
  rw [hb, runAux_fail results i 0 [] rFail hbefore hget hfail]
  simp [collectedData]

/-- Witness for the amended claim C5 at the concrete 3-step scenario. -/
theorem claim_C5_amended_witness :
    puppeteerRunLoop {} cexRunResults =
      { success := false, error := some "boom", failedStepIndex := some 1,
        extractedData := [("step_0", "d0")] } := by
  rw [claim_C5_amended {} cexRunResults 1
    { success := false, error := some "boom" }
    (by decide) (by decide) (by decide) (by decide)]
  decide

/-! ## Claim C9 -/

/-- Claim C9, counterexample: the puppeteer runner performs no implicit
navigation — on a blank page with a first step that carries a URL and whose
navigation would fail, the run still succeeds, while the claim demands an
abort with `failedStepIndex = 0` (the playwright runner indeed aborts). -/
theorem claim_C9_counterexample :
    puppeteerRun blankFailEnv {} implicitNavSteps implicitNavResults =
      { success := true, extractedData := [] } ∧
    blankFailEnv.initialUrl = "about:blank" ∧
    (implicitNavSteps.head?.map (·.type)) = some "click" ∧
    (implicitNavSteps.head?.bind (·.url)) = some "https://example.com/start" ∧
    blankFailEnv.gotoError "https://example.com/start" ≠ none ∧
    (playwrightRun blankFailEnv {} implicitNavSteps implicitNavResults).success
      = false := by
  refine ⟨by decide, by decide, by decide, by decide, by decide, by decide⟩

/-- Claim C9 as amended: only the playwright runner performs the implicit
navigation; on a blank page whose first step carries a URL but is not a
`navigate` step, a failing implicit navigation aborts the run with
`success = false` and `failedStepIndex = 0`, and a successful one hands over
to the ordinary step loop. -/
theorem claim_C9_amended (env : PageEnv) (options : RunnerOptions)
    (steps : List RunStepView) (results : List ExecutionResult)
    (s0 : RunStepView) (u : String)
    (hblank : env.initialUrl = "about:blank")
    (hhead : steps.head? = some s0)
    (htype : s0.type ≠ "navigate") (hurl : s0.url = some u) (hu : u ≠ "") :
    (∀ msg, env.gotoError u = some msg →
      playwrightRun env options steps results =
        { success := false,
          error := some ("Implicit navigation failed: " ++ msg),
          failedStepIndex := some 0, extractedData := [] }) ∧
    (env.gotoError u = none →
      playwrightRun env options steps results =
        puppeteerRunLoop options results) := by
  cases steps with
  | nil => simp at hhead
  | cons a rest =>
    simp only [List.head?_cons, Option.some.injEq] at hhead
    subst hhead
    constructor
    · intro msg hmsg
      simp [playwrightRun, hblank, htype, truthy, hurl, hu, hmsg]
    · intro hok
      simp [playwrightRun, puppeteerRunLoop, hblank, htype, truthy, hurl, hu,
        hok]

/-- Witness for the amended claim C9 at the concrete blank-page scenario. -/
theorem claim_C9_amended_witness :
    playwrightRun blankFailEnv {} implicitNavSteps implicitNavResults =
      { success := false,
        error := some ("Implicit navigation failed: " ++
          "net::ERR_NAME_NOT_RESOLVED"),
        failedStepIndex := some 0, extractedData := [] } :=
  (claim_C9_amended blankFailEnv {} implicitNavSteps implicitNavResults
    { type := "click", url := some "https://example.com/start" }
    "https://example.com/start" (by decide) (by decide) (by decide)
    (by decide) (by decide)).1 "net::ERR_NAME_NOT_RESOLVED" (by decide)

/-! ## Claim C7 -/

/-- Claim C7, counterexample: on the puppeteer backend an extract step with
`prop:"value"` on an input pre-filled with `abc` yields the trimmed text
content (empty), not `abc` — `prop` is never consulted there. -/
theorem claim_C7_counterexample :
    puppeteerRunStepExtract (fun _ => extractDoc) extractStep {} =
      { success := true, extractedData := some "" } ∧
    extractStep.prop = some "value" ∧
    ((elemAt? extractBody [0]).map (·.value)) = some "abc" ∧
    (puppeteerRunStepExtract (fun _ => extractDoc) extractStep {}).extractedData
      ≠ some "abc" := by
  refine ⟨by decide, by decide, by decide, by decide⟩

/-- Claim C7 as amended: on the in-page backend an extract step with
`prop:"value"` on a resolvable element exposing a `value` property succeeds
and returns exactly the element's current value; the puppeteer backend
instead always extracts trimmed text content. -/
theorem claim_C7_amended (docAt : Nat → Document) (serialize : DNode → String)
    (step : Step) (p : Path) (used : String) (t : Nat) (d : ElemData)
    (htype : step.type = "extract") (hprop : step.prop = some "value")
    (hfind : findElement docAt step = (some p, used, t))
    (helem : elemAt? (docAt t).root p = some d)
    (hval : hasValueProp d.tag = true) :
    executeExtractStep docAt serialize step =
      { success := true, extractedData := some d.value,
        usedSelector := some used } := by
  unfold executeExtractStep
  rw [if_neg (by simp [htype])]
  simp only [hfind, helem]
  simp [hprop, truthy, hval]

/-- Witness for the amended claim C7: the pre-filled input yields `abc`. -/
theorem claim_C7_amended_witness :
    executeExtractStep (fun _ => extractDoc) (fun _ => "") extractStep =
      { success := true, extractedData := some "abc",
        usedSelector := some "#fld" } := by
  exact claim_C7_amended (fun _ => extractDoc) (fun _ => "") extractStep
    [0] "#fld" 0 { tag := "input", attrs := [("id", "fld")], value := "abc" }
    (by decide) (by decide) (by decide) (by decide) (by decide)

/-! ## Claim C8 -/

/-- Claim C8, counterexample: the playwright backend types the masked
display text, not the original text — `step.text || originalText` — and the
puppeteer backend never invokes a form submit on `submit`. -/
theorem claim_C8_counterexample :
    playwrightTypeText typeStep = "******" ∧
    typeStep.originalText = some "secret" ∧
    ("******" : String) ≠ "secret" ∧
    (playwrightRunStepType (some [0, 0]) typeStep).2 =
      [.fill "******", .pressEnter] := by
  refine ⟨by decide, by decide, by decide, by decide⟩

/-- Claim C8 as amended: on the in-page backend the typed value is the
original (unmasked) text with placeholders substituted, and with `submit`
set the owning form's submit path runs exactly once (no Enter synthesized)
when a form owns the field, else exactly one Enter keydown; the remote
backends instead always press Enter (puppeteer prefers the original text,
playwright the masked text). -/
theorem claim_C8_amended (docAt : Nat → Document) (reqSub : Bool)
    (step : Step) (options : RunnerOptions) (p : Path) (used : String)
    (t : Nat) (d : ElemData)
    (htype : step.type = "type")
    (hfind : findElement docAt step = (some p, used, t))
    (helem : elemAt? (docAt t).root p = some d)
    (htag : (d.tag = "input" ∨ d.tag = "textarea") ∧ d.svg = false)
    (hint : isInteractableD d = true) :
    (executeTypeStep docAt reqSub step options).1.success = true ∧
    Action.setValue (resolveText (jsOr step.originalText step.text)
        options.varsMap) ∈ (executeTypeStep docAt reqSub step options).2 ∧
    (step.submit = true →
      (closestTag? (docAt t).root "form" p).isSome →
      ((executeTypeStep docAt reqSub step options).2.count .formRequestSubmit +
        (executeTypeStep docAt reqSub step options).2.count .formSubmit = 1 ∧
       (executeTypeStep docAt reqSub step options).2.count .keydownEnter = 0 ∧
       (executeTypeStep docAt reqSub step options).2.count .pressEnter = 0)) ∧
    (step.submit = true →
      closestTag? (docAt t).root "form" p = none →
      (executeTypeStep docAt reqSub step options).2.count .keydownEnter = 1) := by
  have htag' : ((d.tag = "input" || d.tag = "textarea") && !d.svg) = true := by
    rcases htag with ⟨h1, h2⟩
    rcases h1 with h | h <;> simp [h, h2]
  unfold executeTypeStep
  rw [if_neg (by simp [htype])]
  simp only [hfind, helem, htag', hint, Bool.not_true, Bool.false_eq_true,
    if_false]
  refine ⟨by simp, by simp, ?_, ?_⟩
  · intro hsub hform
    cases hf : closestTag? (docAt t).root "form" p with
    | none => rw [hf] at hform; simp at hform
    | some fp =>
      cases reqSub <;> simp [hsub, hf, List.count_cons, List.count_append]
  · intro hsub hform
    simp [hsub, hform, List.count_cons, List.count_append]

/-- Witness for the amended claim C8: the single-field form scenario with
original text `secret` and masked text `******`. -/
theorem claim_C8_amended_witness :
    (executeTypeStep (fun _ => typeFormDoc) true typeStep {}).1.success = true ∧
    Action.setValue "secret" ∈ (executeTypeStep (fun _ => typeFormDoc) true typeStep {}).2 ∧
    ((executeTypeStep (fun _ => typeFormDoc) true typeStep {}).2.count .formRequestSubmit +
      (executeTypeStep (fun _ => typeFormDoc) true typeStep {}).2.count .formSubmit = 1) := by
  have h := claim_C8_amended (fun _ => typeFormDoc) true typeStep {}
    [0, 0] "#fld" 0 { tag := "input", attrs := [("id", "fld")] }
    (by decide) (by decide) (by decide) (by decide) (by decide)
  refine ⟨h.1, ?_, ?_⟩
  · have h2 := h.2.1
    simpa using h2
  · exact (h.2.2.1 (by decide) (by decide)).1

/-! ## Claim C10 (placeholder substitution) -/

theorem string_mk_data (s : String) : String.mk s.data = s := by cases s; rfl

theorem substAux_congr (lookup : String → Option String) :
    ∀ f1 f2 l, List.length l < f1 → List.length l < f2 →
      substAux lookup f1 l = substAux lookup f2 l := by
  intro f1
  induction f1 with
  | zero => intro f2 l h1; omega
  | succ g1 ih =>
    intro f2 l h1 h2
    cases f2 with
    | zero => omega
    | succ g2 =>
      cases l with
      | nil => simp [substAux]
      | cons c cs =>
        simp only [substAux]
        by_cases hout : c = '{' ∧ cs.head? = some '{'
        · rw [if_pos hout, if_pos hout]
          rcases hout with ⟨-, hcs⟩
          cases cs with
          | nil => simp at hcs
          | cons c2 cs2 =>
            simp only [List.tail_cons]
            simp only [List.length_cons] at h1 h2
            by_cases hin : (cs2.takeWhile isWordChar) ≠ [] ∧
                (cs2.dropWhile isWordChar).head? = some '}' ∧
                (cs2.dropWhile isWordChar).tail.head? = some '}'
            · rw [if_pos hin, if_pos hin]
              have hd : (cs2.dropWhile isWordChar).length ≤ cs2.length :=
                (List.dropWhile_suffix isWordChar).length_le
              have hlen : (cs2.dropWhile isWordChar).tail.tail.length + 2 ≤
                  cs2.length := by
                rcases hin with ⟨-, ha, hb⟩
                cases hafter : cs2.dropWhile isWordChar with
                | nil => rw [hafter] at ha; simp at ha
                | cons a1 arest =>
                  rw [hafter] at hb hd
                  cases arest with
                  | nil => simp at hb
                  | cons a2 arest2 => simp at hd ⊢; omega
              congr 1
              exact ih g2 _ (by omega) (by omega)
            · rw [if_neg hin, if_neg hin]
              congr 1
              exact ih g2 (c2 :: cs2) (by simp; omega) (by simp; omega)
        · rw [if_neg hout, if_neg hout]
          congr 1
          exact ih g2 cs (by simp at h1; omega) (by simp at h2; omega)



theorem substPlaceholders_cons_ne (lookup : String → Option String)
    (c : Char) (cs : List Char) (h : ¬(c = '{' ∧ cs.head? = some '{')) :
    substPlaceholders lookup (c :: cs) = c :: substPlaceholders lookup cs := by
  unfold substPlaceholders
  have : (c :: cs).length + 1 = cs.length + 1 + 1 := by simp
  rw [this]
  rw [substAux]
  rw [if_neg h]

theorem substPlaceholders_append_nomatch (lookup : String → Option String) :
    ∀ (pre l : List Char), '{' ∉ pre →
      substPlaceholders lookup (pre ++ l) = pre ++ substPlaceholders lookup l := by
  intro pre
  induction pre with
  | nil => simp
  | cons c cs ih =>
    intro l h
    have hc : c ≠ '{' := by
      intro hcon
      exact h (by rw [hcon]; exact List.mem_cons_self _ _)
    rw [List.cons_append, substPlaceholders_cons_ne lookup c (cs ++ l)
      (by simp [hc])]
    rw [ih l (fun hm => h (List.mem_cons_of_mem _ hm))]
    rfl

theorem takeWhile_word_append (name rest : List Char)
    (hword : ∀ c ∈ name, isWordChar c = true) :
    (name ++ '}' :: rest).takeWhile isWordChar = name ∧
    (name ++ '}' :: rest).dropWhile isWordChar = '}' :: rest := by
  induction name with
  | nil => simp [List.takeWhile, List.dropWhile, isWordChar]
  | cons c cs ih =>
    have hc := hword c (List.mem_cons_self _ _)
    have ih2 := ih (fun x hx => hword x (List.mem_cons_of_mem _ hx))
    simp [List.takeWhile, List.dropWhile, hc, ih2.1, ih2.2]

theorem substPlaceholders_marker (lookup : String → Option String)
    (name post : List Char) (hname : name ≠ [])
    (hword : ∀ c ∈ name, isWordChar c = true) :
    substPlaceholders lookup ('{' :: '{' :: (name ++ '}' :: '}' :: post)) =
      ((lookup (String.mk name)).getD "").data ++
        substPlaceholders lookup post := by
  unfold substPlaceholders
  rw [substAux]
  rw [if_pos ⟨rfl, by simp⟩]
  simp only [List.tail_cons]
  have htw := takeWhile_word_append name ('}' :: post) hword
  rw [htw.1, htw.2]
  rw [if_pos ⟨hname, rfl, rfl⟩]
  simp only [List.tail_cons]
  congr 1
  refine substAux_congr lookup _ _ post ?_ ?_ <;>
    first
    | omega
    | (simp; omega)
    | simp



/-- Unfolding of `resolveText` with a variables map. -/
theorem resolveText_some (s : String) (vars : List (String × String)) :
    resolveText s (some vars) =
      if s = "" then s
      else String.mk (substPlaceholders
        (fun k => (vars.find? (fun kv => kv.1 == k)).map (·.2)) s.data) := rfl

/-- Claim C10. -/
theorem claim_C10 (text pre name post : String)
    (vars : List (String × String))
    (hpre : '{' ∉ pre.data)
    (hname : name.data ≠ []) (hword : ∀ c ∈ name.data, isWordChar c = true)
    (habsent : vars.find? (fun kv => kv.1 == name) = none) :
    resolveText text none = text ∧
    resolveText (pre ++ "\x7b\x7b" ++ name ++ "\x7d\x7d" ++ post) (some vars) =
      pre ++ resolveText post (some vars) := by
  refine ⟨rfl, ?_⟩
  have hdata : (pre ++ "\x7b\x7b" ++ name ++ "\x7d\x7d" ++ post).data =
      pre.data ++ ('{' :: '{' :: (name.data ++ '}' :: '}' :: post.data)) := by
    simp [String.data_append]
  have hne : (pre ++ "\x7b\x7b" ++ name ++ "\x7d\x7d" ++ post) ≠ "" := by
    intro hcon
    have hd := congrArg String.data hcon
    rw [hdata] at hd
    simp at hd
  have hmkname : String.mk name.data = name := by cases name; rfl
  rw [resolveText_some, if_neg hne, hdata]
  rw [substPlaceholders_append_nomatch _ pre.data _ hpre]
  rw [substPlaceholders_marker _ name.data post.data hname hword]
  simp only [hmkname, habsent, Option.map_none', Option.getD_none]
  rw [resolveText_some]
  by_cases hp : post = ""
  · subst hp
    show String.mk (pre.data ++ _) = _
    simp [substPlaceholders, substAux]
  · rw [if_neg hp]
    show String.mk (pre.data ++ _) = _
    cases pre
    cases post
    rfl

/-- Witness for claim C10 at a concrete text with an absent variable. -/
theorem claim_C10_witness :
    resolveText "z" none = "z" ∧
    resolveText ("a" ++ "\x7b\x7b" ++ "user" ++ "\x7d\x7d" ++ "b\x7b\x7bx\x7d\x7d")
        (some [("x", "7")]) =
      "a" ++ resolveText "b\x7b\x7bx\x7d\x7d" (some [("x", "7")]) :=
  claim_C10 "z" "a" "user" "b\x7b\x7bx\x7d\x7d" [("x", "7")] (by decide) (by decide)
    (by decide) (by decide)

/-! ## Claim C6 (bounded polling) -/

/-- When no poll ever finds the element, the wait loop ends in an error
without the finish time ever reaching `timeout + 100`. -/
theorem waitForLocatorAux_never (docAt : Nat → Document) (loc : ElementLocator)
    (vis inter : Bool) (timeout : Nat)
    (hnever : ∀ u, findByLocator (docAt u) loc = none) :
    ∀ fuel t, timeout ≤ t + 100 * fuel → t < timeout + 100 →
      (waitForLocatorAux docAt loc vis inter timeout fuel t).1 =
        Except.error
          ("Timeout waiting for element. Primary selector: " ++ loc.primary) ∧
      (waitForLocatorAux docAt loc vis inter timeout fuel t).2 <
        timeout + 100 := by
  intro fuel
  induction fuel with
  | zero =>
    intro t hf ht
    constructor
    · show _ = _
      rfl
    · exact ht
  | succ g ih =>
    intro t hf ht
    by_cases hlt : t < timeout
    · have hrec := ih (t + 100) (by omega) (by omega)
      simp only [waitForLocatorAux, if_pos hlt, hnever t]
      exact hrec
    · simp only [waitForLocatorAux, if_neg hlt]
      constructor
      · first
        | trivial
        | rfl
      · exact ht

/-- When no poll ever yields a candidate, the puppeteer resolver loop ends
with no element without the finish time ever reaching `timeout + 100`. -/
theorem getElementAux_never (pageAt : Nat → Document) (selectors : List String)
    (md : Option LocatorMetadata) (timeout : Nat)
    (hnever : ∀ u, pickBestCandidate (pageAt u) selectors md = none) :
    ∀ fuel t, timeout ≤ t + 100 * fuel → t < timeout + 100 →
      (getElementAux pageAt selectors md timeout fuel t).1 = none ∧
      (getElementAux pageAt selectors md timeout fuel t).2 < timeout + 100 := by
  intro fuel
  induction fuel with
  | zero =>
    intro t hf ht
    constructor
    · show _ = _
      rfl
    · exact ht
  | succ g ih =>
    intro t hf ht
    by_cases hlt : t < timeout
    · have hrec := ih (t + 100) (by omega) (by omega)
      simp only [getElementAux, if_pos hlt, hnever t]
      exact hrec
    · simp only [getElementAux, if_neg hlt]
      constructor
      · first
        | trivial
        | rfl
      · exact ht

/-- Claim C6: on both resolvers, a locator whose element never appears makes
resolution terminate with a failure within `timeout` plus one 100 ms poll
interval. -/
theorem claim_C6 (docAt pageAt : Nat → Document) (loc : ElementLocator)
    (vis inter : Bool) (timeout : Nat) (htz : timeout ≠ 0) :
    ((∀ u, findByLocator (docAt u) loc = none) →
      (waitForLocator docAt loc vis inter (some timeout)).1 =
        Except.error
          ("Timeout waiting for element. Primary selector: " ++ loc.primary) ∧
      (waitForLocator docAt loc vis inter (some timeout)).2 ≤ timeout + 100) ∧
    ((∀ u, pickBestCandidate (pageAt u)
        (loc.primary :: loc.fallbacks) loc.metadata = none) →
      (getElement pageAt loc timeout).1 = none ∧
      (getElement pageAt loc timeout).2 ≤ timeout + 100) := by
  constructor
  · intro hnever
    have hw := waitForLocatorAux_never docAt loc vis inter timeout hnever
      (timeout / 100 + 1) 0 (by omega) (by omega)
    simp only [waitForLocator]
    rw [if_pos htz]
    exact ⟨hw.1, by omega⟩
  · intro hnever
    have hw := getElementAux_never pageAt (loc.primary :: loc.fallbacks)
      loc.metadata timeout hnever (timeout / 100 + 1) 0 (by omega) (by omega)
    unfold getElement
    exact ⟨hw.1, by omega⟩

/-- Witness for claim C6 at a concrete 250 ms timeout on an empty page. -/
theorem claim_C6_witness :
    (waitForLocator (fun _ => emptyDoc)
        { primary := ".never", fallbacks := [".nope"] } false false
        (some 250)).1 =
      Except.error
        ("Timeout waiting for element. Primary selector: " ++ ".never") ∧
    (waitForLocator (fun _ => emptyDoc)
        { primary := ".never", fallbacks := [".nope"] } false false
        (some 250)).2 ≤ 350 ∧
    (getElement (fun _ => emptyDoc)
        { primary := ".never", fallbacks := [".nope"] } 250).1 = none ∧
    (getElement (fun _ => emptyDoc)
        { primary := ".never", fallbacks := [".nope"] } 250).2 ≤ 350 := by
  have h := claim_C6 (fun _ => emptyDoc) (fun _ => emptyDoc)
    { primary := ".never", fallbacks := [".nope"] } false false 250 (by decide)
  have hn1 : ∀ u : Nat, findByLocator ((fun _ : Nat => emptyDoc) u)
      ({ primary := ".never", fallbacks := [".nope"] } : ElementLocator) =
      none := by
    intro u
    show findByLocator emptyDoc
      { primary := ".never", fallbacks := [".nope"] } = none
    decide
  have hn2 : ∀ u : Nat, pickBestCandidate ((fun _ : Nat => emptyDoc) u)
      (({ primary := ".never", fallbacks := [".nope"] } : ElementLocator).primary ::
        ({ primary := ".never", fallbacks := [".nope"] } : ElementLocator).fallbacks)
      ({ primary := ".never", fallbacks := [".nope"] } : ElementLocator).metadata =
      none := by
    intro u
    show pickBestCandidate emptyDoc (".never" :: [".nope"]) none = none
    decide
  have h1 := h.1 hn1
  have h2 := h.2 hn2
  exact ⟨h1.1, h1.2, h2.1, h2.2⟩

/-! ## Claim C1 (scoring weights) -/

/-- The puppeteer in-page form-field index is 1-based, hence never zero. -/
theorem getFormFieldIndex_ne_some_zero (root : DNode) (p : Path) :
    getFormFieldIndex root p ≠ some 0 := by
  unfold getFormFieldIndex
  cases (elemAt? root p).map (·.svg) with
  | none => simp
  | some b =>
    cases b with
    | true => simp
    | false =>
      simp only []
      cases closestTag? root "form" p with
      | none => simp
      | some fp =>
        cases h : (formFieldsOf root fp).indexOf? p with
        | none => simp [h]
        | some i => simp [h]

set_option maxRecDepth 4000 in
/-- Claim C1 as amended: the advertised weight table is exactly the
puppeteer backend's `calculateScore`; the in-page backend scores with its
own table (no test-id, +80/+60/+10/+10). -/
theorem claim_C1_amended (root : DNode) (p : Path) (m : LocatorMetadata)
    (hwf : mdWellFormed m) :
    calculateScore root p (some m) = claimedScore root p m ∧
    verifyScore root m p = domClaimedScore root p m := by
  obtain ⟨hwt, hwl, hwp, hwa, hwtg, hwr⟩ := hwf
  constructor
  · cases helem : elemAt? root p with
    | none => simp [calculateScore, claimedScore, helem]
    | some d =>
      simp only [calculateScore, claimedScore, helem]
      congr 1
      · congr 1
        · congr 1
          · congr 1
            · congr 1
              · congr 1
                · -- test id
                  cases hmt : m.testId with
                  | none => simp [truthy, claimedTestIdMatch, hmt]
                  | some v =>
                    rw [hmt] at hwt
                    have hv : v ≠ "" := by simpa using hwt
                    simp [truthy, claimedTestIdMatch, hmt, bne_iff_ne, hv]
                · -- label text
                  cases hml : m.labelText with
                  | none => simp [truthy, claimedLabelScore, hml]
                  | some v =>
                    rw [hml] at hwl
                    have hv : v ≠ "" := by simpa using hwl
                    cases hlbl : pAssocLabelText root p with
                    | none => simp [truthy, claimedLabelScore, hml, hlbl]
                    | some l =>
                      simp [truthy, claimedLabelScore, hml, hlbl, bne_iff_ne, hv]
              · -- field index
                cases hmf : m.formContext with
                | none => simp [claimedFieldIndexMatch, hmf]
                | some fc =>
                  simp only [claimedFieldIndexMatch, hmf, Option.map_some,
                    Option.getD_some]
                  by_cases hz : fc.fieldIndex = 0
                  · have hne := getFormFieldIndex_ne_some_zero root p
                    simp [hz, beq_iff_eq, hne]
                  · simp [hz]
            · -- placeholder
              cases hmp : m.placeholder with
              | none => simp [truthy, claimedPlaceholderMatch, hmp]
              | some v =>
                rw [hmp] at hwp
                have hv : v ≠ "" := by simpa using hwp
                simp [truthy, claimedPlaceholderMatch, hmp, bne_iff_ne, hv]
          · -- aria label
            cases hma : m.ariaLabel with
            | none => simp [truthy, claimedAriaMatch, hma]
            | some v =>
              rw [hma] at hwa
              have hv : v ≠ "" := by simpa using hwa
              simp [truthy, claimedAriaMatch, hma, bne_iff_ne, hv]
        · -- tag name
          cases hmtg : m.tagName with
          | none => simp [truthy, claimedTagMatch, hmtg]
          | some v =>
            rw [hmtg] at hwtg
            have hv : v ≠ "" := by simpa using hwtg
            simp [truthy, claimedTagMatch, hmtg, bne_iff_ne, hv]
      · -- role
        cases hmr : m.role with
        | none => simp [truthy, claimedRoleMatch, hmr]
        | some v =>
          rw [hmr] at hwr
          have hv : v ≠ "" := by simpa using hwr
          simp [truthy, claimedRoleMatch, hmr, bne_iff_ne, hv]
  · cases helem : elemAt? root p with
    | none => simp [verifyScore, domClaimedScore, helem]
    | some d =>
      simp only [verifyScore, domClaimedScore, helem]
      congr 1
      · congr 1
        · congr 1
          · congr 1
            · -- label text (form fields only)
              cases hml : m.labelText with
              | none => simp [truthy, domClaimedLabelScore, hml]
              | some v =>
                rw [hml] at hwl
                have hv : v ≠ "" := by simpa using hwl
                cases hlbl : assocLabelSteps root p with
                | none => simp [truthy, domClaimedLabelScore, hml, hlbl]
                | some l =>
                  simp [truthy, domClaimedLabelScore, hml, hlbl, bne_iff_ne, hv]
            · -- form context
              cases hmf : m.formContext with
              | none => simp [hmf]
              | some fc =>
                cases hgc : getFormContextForElement root p with
                | none => simp [hmf, hgc]
                | some ctx =>
                  simp only [hmf, hgc, beq_iff_eq, Option.map_some,
                    Option.isSome_some, Bool.true_and]
                  by_cases hsvg : d.svg = false
                  · by_cases hfi : ctx.fieldIndex = fc.fieldIndex <;>
                      simp [hsvg, hfi]
                  · simp [hsvg]
          · -- placeholder
            cases hmp : m.placeholder with
            | none => simp [truthy, domClaimedPlaceholderMatch, hmp]
            | some v =>
              rw [hmp] at hwp
              have hv : v ≠ "" := by simpa using hwp
              simp [truthy, domClaimedPlaceholderMatch, hmp, bne_iff_ne, hv]
        · -- tag name
          cases hmtg : m.tagName with
          | none => simp [truthy, claimedTagMatch, hmtg]
          | some v =>
            rw [hmtg] at hwtg
            have hv : v ≠ "" := by simpa using hwtg
            simp [truthy, claimedTagMatch, hmtg, bne_iff_ne, hv]
      · -- role
        cases hmr : m.role with
        | none => simp [truthy, hmr]
        | some v =>
          rw [hmr] at hwr
          have hv : v ≠ "" := by simpa using hwr
          simp [truthy, hmr, bne_iff_ne, hv]


/-- Claim C1, counterexample: on the in-page backend an element matching
only the metadata's placeholder scores 60, not the advertised 70 — the two
backends do not share the claimed weight table. -/
theorem claim_C1_counterexample :
    verifyScore cexBody { placeholder := some "p" } [2] = 60 ∧
    claimedScore cexBody [2] { placeholder := some "p" } = 70 ∧
    verifyScore cexBody { placeholder := some "p" } [2] ≠
      claimedScore cexBody [2] { placeholder := some "p" } := by
  refine ⟨by decide, by decide, by decide⟩

/-- Witness for the amended claim C1 at the placeholder-only metadata. -/
theorem claim_C1_amended_witness :
    calculateScore cexBody [2] (some { placeholder := some "p" }) =
      claimedScore cexBody [2] { placeholder := some "p" } ∧
    verifyScore cexBody { placeholder := some "p" } [2] =
      domClaimedScore cexBody [2] { placeholder := some "p" } :=
  claim_C1_amended cexBody [2] { placeholder := some "p" } (by decide)

/-! ## Claim C2 (confidence threshold) -/

/-- The best score of the `verifyWithMetadata` fold never exceeds the scores
of the visible candidates. -/
theorem verifyFold_lt (root : DNode) (m : LocatorMetadata) (bound : Int) :
    ∀ (cands : List Path) (bm : Option Path) (bs : Int),
      (∀ p ∈ cands, (verifyScore root m p : Int) < bound) → bs < bound →
      (verifyFold root m cands bm bs).2 < bound := by
  intro cands
  induction cands with
  | nil =>
    intro bm bs hall hbs
    simpa [verifyFold] using hbs
  | cons p rest ih =>
    intro bm bs hall hbs
    by_cases hvis : isVisibleAt root p = true
    · simp only [verifyFold, hvis, Bool.not_true, Bool.false_eq_true,
        if_false]
      by_cases hgt : (verifyScore root m p : Int) > bs
      · rw [if_pos hgt]
        exact ih _ _ (fun q hq => hall q (by simp [hq]))
          (hall p (by simp))
      · rw [if_neg hgt]
        exact ih _ _ (fun q hq => hall q (by simp [hq])) hbs
    · simp only [verifyFold]
      rw [if_pos (by simpa using hvis)]
      exact ih _ _ (fun q hq => hall q (by simp [hq])) hbs

/-- The puppeteer resolver keeps polling (and finally fails) while every
poll is ambiguous below the threshold. -/
theorem getElementAux_ambiguous (pageAt : Nat → Document)
    (selectors : List String) (md : Option LocatorMetadata) (timeout : Nat)
    (hamb : ∀ u best total,
      pickBestCandidate (pageAt u) selectors md = some (best, total) →
      2 ≤ total ∧ best.score < 80) :
    ∀ fuel t, timeout ≤ t + 100 * fuel → t < timeout + 100 →
      (getElementAux pageAt selectors md timeout fuel t).1 = none ∧
      (getElementAux pageAt selectors md timeout fuel t).2 < timeout + 100 := by
  intro fuel
  induction fuel with
  | zero =>
    intro t hf ht
    constructor
    · rfl
    · exact ht
  | succ g ih =>
    intro t hf ht
    by_cases hlt : t < timeout
    · have hrec := ih (t + 100) (by omega) (by omega)
      cases hp : pickBestCandidate (pageAt t) selectors md with
      | none =>
        simp only [getElementAux, if_pos hlt, hp]
        exact hrec
      | some bt =>
        obtain ⟨h2, h80⟩ := hamb t bt.1 bt.2 (by rw [hp])
        have hcond : (bt.2 = 1 || bt.1.score ≥ 80) = false := by
          have hn1 : ¬(bt.2 = 1) := by omega
          have hn2 : ¬(bt.1.score ≥ 80) := by omega
          simp [hn1, hn2]
        simp only [getElementAux, if_pos hlt, hp, hcond, Bool.false_eq_true,
          if_false]
        exact hrec
    · simp only [getElementAux, if_neg hlt]
      constructor
      · first | trivial | rfl
      · exact ht

/-- Claim C2, counterexample: on the in-page backend, two distinct visible
candidates both scoring far below 80 (and below the local threshold 50) do
not make the selector inconclusive — the resolver returns the first visible
candidate as a guess. -/
theorem claim_C2_counterexample :
    findByLocator cexDoc cexLoc = some [0] ∧
    visibleCandidates cexDoc "div.row" = some [[0], [1]] ∧
    verifyScore cexBody { tagName := some "span" } [0] < 80 ∧
    verifyScore cexBody { tagName := some "span" } [1] < 80 ∧
    ([0] : Path) ≠ [1] := by
  refine ⟨by decide, by decide, by decide, by decide, by decide⟩

/-- Claim C2 as amended: the 80 threshold belongs to the puppeteer backend,
where an ambiguous best candidate below it is never returned (the resolver
re-polls all selectors together and finally fails); the in-page backend
instead uses 50 and below it returns the first visible candidate. -/
theorem claim_C2_amended :
    (∀ (pageAt : Nat → Document) (loc : ElementLocator) (timeout : Nat),
      (∀ u best total,
        pickBestCandidate (pageAt u) (loc.primary :: loc.fallbacks)
          loc.metadata = some (best, total) → 2 ≤ total ∧ best.score < 80) →
      (getElement pageAt loc timeout).1 = none ∧
      (getElement pageAt loc timeout).2 ≤ timeout + 100) ∧
    (∀ (root : DNode) (cands : List Path) (m : LocatorMetadata),
      (∀ p ∈ cands, verifyScore root m p < 50) →
      verifyWithMetadata root cands (some m) =
        cands.find? (isVisibleAt root)) := by
  constructor
  · intro pageAt loc timeout hamb
    have hw := getElementAux_ambiguous pageAt (loc.primary :: loc.fallbacks)
      loc.metadata timeout hamb (timeout / 100 + 1) 0 (by omega) (by omega)
    unfold getElement
    exact ⟨hw.1, by omega⟩
  · intro root cands m hlow
    have hfold := verifyFold_lt root m 50 cands none (-1)
      (fun p hp => by exact_mod_cast hlow p hp) (by omega)
    show (if (verifyFold root m cands none (-1)).2 ≥ 50
        then (verifyFold root m cands none (-1)).1
        else cands.find? (isVisibleAt root)) = cands.find? (isVisibleAt root)
    rw [if_neg (by omega)]

/-- Witness for the amended claim C2 at the two-div ambiguity scenario. -/
theorem claim_C2_amended_witness :
    (getElement (fun _ => cexDoc) cexLoc 250).1 = none ∧
    verifyWithMetadata cexBody [[0], [1]] (some { tagName := some "span" }) =
      ([[0], [1]] : List Path).find? (isVisibleAt cexBody) := by
  have h := claim_C2_amended
  have hamb : ∀ u best total,
      pickBestCandidate ((fun _ : Nat => cexDoc) u)
        (cexLoc.primary :: cexLoc.fallbacks) cexLoc.metadata =
        some (best, total) → 2 ≤ total ∧ best.score < 80 := by
    intro u best total hpick
    have hpick' : pickBestCandidate cexDoc ("div.row" :: [])
        (some { tagName := some "span" }) = some (best, total) := hpick
    have hval : pickBestCandidate cexDoc ("div.row" :: [])
        (some { tagName := some "span" }) =
        some ({ selector := "div.row", selectorOrder := 0, elementIndex := 0,
                score := 0, visible := true, interactable := true,
                domPath := "div:nth-of-type(1)" }, 2) := by decide
    rw [hval] at hpick'
    injection hpick' with hp1
    injection hp1 with hb ht2
    subst hb
    subst ht2
    exact ⟨by omega, by decide⟩
  refine ⟨(h.1 (fun _ => cexDoc) cexLoc 250 hamb).1, ?_⟩
  exact h.2 cexBody [[0], [1]] { tagName := some "span" } (by decide)

/-! ## Claim C3 (metadata-only fuzzy fallback) -/

/-- The selector phase finds nothing when every selector either throws or
yields no visible candidate. -/
theorem findBySelectors_none (doc : Document) (md : Option LocatorMetadata) :
    ∀ sels : List String,
      (∀ sel ∈ sels, visibleCandidates doc sel = none ∨
        visibleCandidates doc sel = some []) →
      findBySelectors doc md sels = none := by
  intro sels
  induction sels with
  | nil => intro _; rfl
  | cons sel rest ih =>
    intro hall
    have hrest : findBySelectors doc md rest = none :=
      ih (fun s hs => hall s (by simp [hs]))
    rcases hall sel (by simp) with hv | hv
    · simp only [findBySelectors, hv]
      exact hrest
    · simp only [findBySelectors, hv]
      exact hrest

/-- Claim C3, counterexample: the final fuzzy stage is not an
`aria-label` attribute match — a visible element carrying the exact
`aria-label` named by the metadata is not found once every selector comes
up empty, because that stage looks the `ariaLabel` string up as label
text. -/
theorem claim_C3_counterexample :
    findByLocator cexDoc
      { primary := "nope", fallbacks := [],
        metadata := some { ariaLabel := some "X" } } = none ∧
    getAttrAt cexBody [3] "aria-label" = some "X" ∧
    isVisibleAt cexBody [3] = true := by
  refine ⟨by decide, by decide, by decide⟩

/-- Claim C3 as amended: when every selector (primary and fallbacks) throws
or yields no visible candidate and metadata is present, resolution is
exactly the metadata-only fuzzy phase — labelText (extended form-field
lookup, preferring a matching tag name), test-id, normalized text
(role-filtered), exact placeholder, and finally a label-text lookup keyed
by the `ariaLabel` string rather than an `aria-label` attribute match. -/
theorem claim_C3_amended (doc : Document) (loc : ElementLocator)
    (md : LocatorMetadata) (hmd : loc.metadata = some md)
    (hsel : ∀ sel ∈ loc.primary :: loc.fallbacks,
      visibleCandidates doc sel = none ∨ visibleCandidates doc sel = some []) :
    findByLocator doc loc = fuzzyPhase doc.root md := by
  have h1 := findBySelectors_none doc loc.metadata
    (loc.primary :: loc.fallbacks) hsel
  rw [hmd] at h1
  simp only [findByLocator, hmd, h1]

/-- Witness for the amended claim C3 on the counterexample document: the
labelText metadata drives the fuzzy phase to the placeholder input. -/
theorem claim_C3_amended_witness :
    findByLocator cexDoc
      { primary := "nope", fallbacks := [],
        metadata := some { placeholder := some "p" } } =
      fuzzyPhase cexBody { placeholder := some "p" } := by
  exact claim_C3_amended cexDoc
    { primary := "nope", fallbacks := [],
      metadata := some { placeholder := some "p" } }
    { placeholder := some "p" } rfl
    (by intro sel hs; fin_cases hs <;> right <;> rfl)

/-! ## Claim C4 (locator generation invariants) -/

/-! ### Character-class facts -/

theorem simpleChar_ne {c : Char} (h : simpleChar c = true) : c ≠ ' ' ∧ c ≠ '>' := by
  constructor <;> intro he <;> subst he <;> exact absurd h (by decide)

theorem tagChar_ne {c : Char} (h : tagChar c = true) :
    c ≠ '[' ∧ c ≠ '#' ∧ c ≠ ' ' ∧ c ≠ '>' := by
  refine ⟨?_, ?_, ?_, ?_⟩ <;> intro he <;> subst he <;> exact absurd h (by decide)

theorem idLike_all {s : String} (h : idLike s = true) :
    ∀ c ∈ s.data, simpleChar c = true := by
  have h1 := (Bool.and_eq_true _ _).mp h |>.1
  exact fun c hc => List.all_eq_true.mp h1 c hc

theorem idLike_head {s : String} (h : idLike s = true) :
    ∀ c, s.data.head? = some c → asciiLetter c = true := by
  have h2 := (Bool.and_eq_true _ _).mp h |>.2
  intro c hc
  cases hd : s.data with
  | nil => rw [hd] at hc; exact absurd hc (by simp)
  | cons a l =>
    rw [hd] at hc h2
    simp at hc
    subst hc
    exact h2

theorem tagLike_parts {s : String} (h : tagLike s = true) :
    s.data ≠ [] ∧ ∀ c ∈ s.data, tagChar c = true := by
  have h1 := (Bool.and_eq_true _ _).mp h
  constructor
  · intro he
    have hs0 : s = "" := by
      cases s
      simp only [String.data] at he
      simp [he]
    rw [hs0] at h
    exact absurd h (by decide)
  · exact fun c hc => List.all_eq_true.mp h1.2 c hc

/-! ### Generic list helpers -/

theorem any_false {p : Char → Bool} : ∀ (l : List Char), (∀ c ∈ l, p c = false) →
    l.any p = false := by
  intro l h
  induction l with
  | nil => rfl
  | cons a t ih =>
    simp only [List.any_cons, Bool.or_eq_false_iff]
    exact ⟨h a (by simp), ih (fun c hc => h c (by simp [hc]))⟩

theorem dropWhile_all_cons (p : Char → Bool) :
    ∀ (a : List Char) (x : Char) (r : List Char),
      (∀ c ∈ a, p c = true) → p x = false →
      List.dropWhile p (a ++ x :: r) = x :: r := by
  intro a
  induction a with
  | nil =>
    intro x r _ hx
    simp [List.dropWhile_cons, hx]
  | cons b t ih =>
    intro x r hall hx
    have hb : p b = true := hall b (by simp)
    simp only [List.cons_append, List.dropWhile_cons, hb, if_true]
    exact ih x r (fun c hc => hall c (by simp [hc])) hx

theorem flatMap_singleton_eq_map {α β : Type} (g : α → List β) (f : α → β) :
    ∀ (l : List α), (∀ x ∈ l, g x = [f x]) → l.flatMap g = l.map f := by
  intro l h
  induction l with
  | nil => rfl
  | cons a t ih =>
    simp only [List.flatMap_cons, List.map_cons, h a (by simp),
      ih (fun x hx => h x (by simp [hx]))]
    rfl

theorem enumFrom_facts {α : Type} :
    ∀ (l : List α) (n : Nat) (i : Nat) (c : α), (i, c) ∈ l.enumFrom n →
      c ∈ l ∧ n ≤ i ∧ (i = n → l.head? = some c) := by
  intro l
  induction l with
  | nil => intro n i c h; exact absurd h (by simp)
  | cons a t ih =>
    intro n i c h
    simp only [List.enumFrom, List.mem_cons] at h
    rcases h with h | h
    · have h1 : i = n := congrArg Prod.fst h
      have h2 : c = a := congrArg Prod.snd h
      subst h1
      subst h2
      exact ⟨by simp, le_refl _, fun _ => rfl⟩
    · obtain ⟨hc, hn, _⟩ := ih (n + 1) i c h
      exact ⟨by simp [hc], by omega, fun he => by omega⟩

/-! ### CSS escape is the identity on identifier-like values -/

theorem cssEscapeChar_id {c : Char} (idx : Nat) (first : Option Char) (len : Nat)
    (hc : simpleChar c = true)
    (hfirst : ∀ c0, first = some c0 → asciiLetter c0 = true)
    (hidx0 : idx = 0 → asciiLetter c = true) :
    cssEscapeChar c idx first len = [c] := by
  have hf : first ≠ some '-' := by
    intro he
    exact absurd (hfirst '-' he) (by decide)
  simp only [simpleChar, Bool.or_eq_true, Bool.and_eq_true, decide_eq_true_eq] at hc
  unfold cssEscapeChar
  rcases hc with (((⟨h1, h2⟩ | ⟨h1, h2⟩) | ⟨h1, h2⟩) | h) | h
  · -- digit
    have hi0 : idx ≠ 0 := by
      intro he
      have := hidx0 he
      simp only [asciiLetter, Bool.or_eq_true, Bool.and_eq_true,
        decide_eq_true_eq] at this
      omega
    rw [if_neg (by omega), if_neg (by omega), if_neg (by omega),
      if_neg (fun hx => hf hx.2.2), if_neg (fun hx => hi0 hx.1),
      if_pos (Or.inr (Or.inr (Or.inr (Or.inl ⟨h1, h2⟩))))]
  · -- upper
    rw [if_neg (by omega), if_neg (by omega), if_neg (by omega),
      if_neg (fun hx => hf hx.2.2),
      if_neg (by rintro ⟨h0, hc', hl⟩; subst hc'; exact absurd h1 (by decide)),
      if_pos (Or.inr (Or.inr (Or.inr (Or.inr (Or.inl ⟨h1, h2⟩)))))]
  · -- lower
    rw [if_neg (by omega), if_neg (by omega), if_neg (by omega),
      if_neg (fun hx => hf hx.2.2),
      if_neg (by rintro ⟨h0, hc', hl⟩; subst hc'; exact absurd h1 (by decide)),
      if_pos (Or.inr (Or.inr (Or.inr (Or.inr (Or.inr ⟨h1, h2⟩)))))]
  · -- c = '-'
    subst h
    have hi0 : idx ≠ 0 := by
      intro he
      exact absurd (hidx0 he) (by decide)
    have h45 : ('-' : Char).toNat = 45 := rfl
    rw [if_neg (by omega), if_neg (by omega), if_neg (by omega),
      if_neg (fun hx => absurd hx.2.1.1 (by decide)),
      if_neg (fun hx => hi0 hx.1), if_pos (Or.inr (Or.inl rfl))]
  · -- c = '_'
    subst h
    have h95 : ('_' : Char).toNat = 95 := rfl
    rw [if_neg (by omega), if_neg (by omega), if_neg (by omega),
      if_neg (fun hx => absurd hx.2.1.2 (by decide)),
      if_neg (fun hx => absurd hx.2.1 (by decide)),
      if_pos (Or.inr (Or.inr (Or.inl rfl)))]

theorem cssEscape_idLike {s : String} (h : idLike s = true) : cssEscape s = s := by
  unfold cssEscape
  have hall := idLike_all h
  have hhead := idLike_head h
  have hmap : (s.data.enum).flatMap
      (fun ic => cssEscapeChar ic.2 ic.1 s.data.head? s.data.length) =
      (s.data.enum).map (·.2) := by
    apply flatMap_singleton_eq_map
    intro ic hic
    obtain ⟨hmem, _, hhd⟩ := enumFrom_facts s.data 0 ic.1 ic.2 hic
    exact cssEscapeChar_id ic.1 s.data.head? s.data.length (hall _ hmem)
      hhead (fun h0 => hhead ic.2 (hhd h0))
  rw [hmap, List.enum_map_snd, string_mk_data]

/-! ### Deduplication -/

theorem jsDedupGo_mem : ∀ (l seen : List String) (x : String),
    x ∈ jsDedup.go seen l → x ∈ l := by
  intro l
  induction l with
  | nil => intro seen x h; exact absurd h (by simp [jsDedup.go])
  | cons a t ih =>
    intro seen x h
    by_cases hc : seen.contains a
    · simp only [jsDedup.go, hc, if_true] at h
      exact List.mem_cons_of_mem _ (ih seen x h)
    · simp only [jsDedup.go, hc, Bool.false_eq_true, if_false,
        List.mem_cons] at h
      rcases h with h | h
      · simp [h]
      · exact List.mem_cons_of_mem _ (ih _ x h)

theorem jsDedupGo_not_seen : ∀ (l seen : List String) (x : String),
    x ∈ jsDedup.go seen l → seen.contains x = false := by
  intro l
  induction l with
  | nil => intro seen x h; exact absurd h (by simp [jsDedup.go])
  | cons a t ih =>
    intro seen x h
    by_cases hc : seen.contains a
    · simp only [jsDedup.go, hc, if_true] at h
      exact ih seen x h
    · simp only [jsDedup.go, hc, Bool.false_eq_true, if_false,
        List.mem_cons] at h
      rcases h with h | h
      · subst h; simpa using hc
      · have := ih (a :: seen) x h
        simp only [List.contains_cons, Bool.or_eq_false_iff] at this
        exact this.2

theorem jsDedupGo_nodup : ∀ (l seen : List String), (jsDedup.go seen l).Nodup := by
  intro l
  induction l with
  | nil => intro seen; simp [jsDedup.go]
  | cons a t ih =>
    intro seen
    by_cases hc : seen.contains a
    · simp only [jsDedup.go, hc, if_true]
      exact ih seen
    · simp only [jsDedup.go, hc, Bool.false_eq_true, if_false]
      refine List.nodup_cons.mpr ⟨?_, ih (a :: seen)⟩
      intro hmem
      have := jsDedupGo_not_seen t (a :: seen) a hmem
      simp at this

theorem jsDedup_mem {l : List String} {x : String} (h : x ∈ jsDedup l) : x ∈ l :=
  jsDedupGo_mem l [] x h

theorem jsDedup_nodup (l : List String) : (jsDedup l).Nodup :=
  jsDedupGo_nodup l []

/-! ### Well-formedness propagation -/

theorem wfList_get : ∀ (cs : List DNode) (i : Nat) (c : DNode),
    wfList cs = true → cs.get? i = some c → wfNode c = true := by
  intro cs
  induction cs with
  | nil => intro i c _ h; exact absurd h (by simp)
  | cons a t ih =>
    intro i c hwf hget
    have h2 := (Bool.and_eq_true _ _).mp hwf
    cases i with
    | zero => simp at hget; subst hget; exact h2.1
    | succ j => exact ih j c h2.2 (by simpa using hget)

theorem wf_getNode : ∀ (p : Path) (n m : DNode),
    wfNode n = true → getNode? n p = some m → wfNode m = true := by
  intro p
  induction p with
  | nil => intro n m hn h; simp [getNode?] at h; subst h; exact hn
  | cons i q ih =>
    intro n m hn h
    cases n with
    | txt s => exact absurd h (by simp [getNode?])
    | elem d cs =>
      simp only [getNode?] at h
      cases hg : cs.get? i with
      | none => rw [hg] at h; exact absurd h (by simp)
      | some c =>
        rw [hg] at h
        have hc : wfNode c = true :=
          wfList_get cs i c ((Bool.and_eq_true _ _).mp hn).2 hg
        exact ih c m hc h

theorem wf_elemAt {root : DNode} {p : Path} {d : ElemData}
    (hwf : wfNode root = true) (hel : elemAt? root p = some d) :
    wfElem d = true := by
  unfold elemAt? at hel
  cases hg : getNode? root p with
  | none => rw [hg] at hel; exact absurd hel (by simp)
  | some n =>
    rw [hg] at hel
    cases n with
    | txt s => exact absurd hel (by simp)
    | elem d' cs =>
      simp at hel
      subst hel
      exact ((Bool.and_eq_true _ _).mp (wf_getNode p root _ hwf hg)).1

theorem getAttr_idLike {d : ElemData} {name v : String}
    (hd : wfElem d = true) (h : getAttr d.attrs name = some v) :
    idLike v = true := by
  unfold getAttr at h
  cases hf : d.attrs.find? (fun kv => kv.1 == name) with
  | none => rw [hf] at h; exact absurd h (by simp)
  | some kv =>
    rw [hf] at h
    simp at h
    have hmem := List.mem_of_find?_eq_some hf
    have hall := ((Bool.and_eq_true _ _).mp ((Bool.and_eq_true _ _).mp hd).1).2
    have := List.all_eq_true.mp hall kv hmem
    rw [← h]
    exact this

theorem getTestId_idLike {d : ElemData} {v : String}
    (hd : wfElem d = true) (h : getTestId d = some v) : idLike v = true := by
  have pick_spec : ∀ (name w : String),
      (match getAttr d.attrs name with
       | some u => if u ≠ "" then some u else none
       | none => none) = some w → getAttr d.attrs name = some w := by
    intro name w hp
    cases hg : getAttr d.attrs name with
    | none =>
      simp only [hg] at hp
      exact hp
    | some u =>
      simp only [hg] at hp
      by_cases hu : u = ""
      · subst hu; simp at hp
      · rw [if_pos hu] at hp
        exact hp
  simp only [getTestId] at h
  cases h1 : (match getAttr d.attrs "data-testid" with
              | some u => if u ≠ "" then some u else none
              | none => none) with
  | some w =>
    simp only [h1] at h
    injection h with hv
    rw [← hv]
    exact getAttr_idLike hd (pick_spec _ _ h1)
  | none =>
    simp only [h1] at h
    cases h2 : (match getAttr d.attrs "data-test" with
                | some u => if u ≠ "" then some u else none
                | none => none) with
    | some w =>
      simp only [h2] at h
      injection h with hv
      rw [← hv]
      exact getAttr_idLike hd (pick_spec _ _ h2)
    | none =>
      simp only [h2] at h
      cases h3 : (match getAttr d.attrs "data-cy" with
                  | some u => if u ≠ "" then some u else none
                  | none => none) with
      | some w =>
        simp only [h3] at h
        injection h with hv
        rw [← hv]
        exact getAttr_idLike hd (pick_spec _ _ h3)
      | none =>
        simp only [h3] at h
        exact getAttr_idLike hd (pick_spec _ _ h)

/-! ### Digit characters -/

theorem natDigitsAux_chars : ∀ (fuel n : Nat) (c : Char),
    c ∈ natDigitsAux fuel n → c ≠ ' ' ∧ c ≠ '>' := by
  intro fuel
  induction fuel with
  | zero => intro n c h; exact absurd h (by simp [natDigitsAux])
  | succ f ih =>
    intro n c h
    by_cases hn : n < 10
    · simp only [natDigitsAux, hn, if_true, List.mem_singleton] at h
      subst h
      interval_cases n <;> exact ⟨by decide, by decide⟩
    · simp only [natDigitsAux, hn, if_false, List.mem_append,
        List.mem_singleton] at h
      rcases h with h | h
      · exact ih (n / 10) c h
      · subst h
        have h10 : n % 10 < 10 := Nat.mod_lt _ (by omega)
        generalize hr : n % 10 = r at h10 ⊢
        interval_cases r <;> exact ⟨by decide, by decide⟩

theorem natToStr_chars (n : Nat) : ∀ c ∈ (natToStr n).data, c ≠ ' ' ∧ c ≠ '>' := by
  intro c hc
  unfold natToStr at hc
  rw [show (String.mk (natDigits n)).data = natDigits n from rfl] at hc
  exact natDigitsAux_chars _ _ c hc

/-! ### Low-level classification lemmas -/

theorem any_eqc_false {l : List Char} {a : Char} (h : ∀ c ∈ l, c ≠ a) :
    (l.any fun c => c = a) = false := by
  apply any_false
  intro c hc
  simp [h c hc]

theorem classify_bracket (s : String) (c1 : Char) (rest : List Char)
    (hs : s.data = '[' :: c1 :: rest)
    (hns : ∀ c ∈ s.data, c ≠ ' ') :
    classify s = (if c1 = 'd' then 0 else if c1 = 'a' then 3 else 16) ∧
    s ≠ "" := by
  have hany : (s.data.any fun c => c = ' ') = false := any_eqc_false hns
  constructor
  · unfold classify
    rw [hs] at hany ⊢
    rw [hany, if_neg (by simp), if_pos (by simp)]
    simp only [List.tail_cons, List.head?_cons]
    by_cases h1 : c1 = 'd'
    · subst h1; simp
    · rw [if_neg (by simpa using h1), if_neg h1]
      by_cases h2 : c1 = 'a'
      · subst h2; simp
      · rw [if_neg (by simpa using h2), if_neg h2]
  · intro he
    rw [he] at hs
    exact absurd hs (by simp)

theorem classify_hash (s : String) (rest : List Char)
    (hs : s.data = '#' :: rest)
    (hns : ∀ c ∈ s.data, c ≠ ' ') :
    classify s = 1 ∧ s ≠ "" := by
  have hany : (s.data.any fun c => c = ' ') = false := any_eqc_false hns
  constructor
  · unfold classify
    rw [hs] at hany ⊢
    rw [hany, if_neg (by simp), if_neg (by simp), if_pos (by simp)]
  · intro he
    rw [he] at hs
    exact absurd hs (by simp)

theorem classify_space {s : String}
    (h : ' ' ∈ s.data) : classify s = 7 ∧ s ≠ "" := by
  constructor
  · unfold classify
    rw [if_pos (List.any_eq_true.mpr ⟨' ', h, by simp⟩)]
  · intro he
    rw [he] at h
    exact absurd h (by simp)

theorem classify_tagged (s t : String) (mid : List Char)
    (hs : s.data = t.data ++ mid)
    (ht : tagLike t = true)
    (hmid : ∀ c ∈ mid, c ≠ ' ' ∧ c ≠ '>')
    (hstop : ∀ c, mid.head? = some c → tagChar c = false) :
    classify s = classifyTail mid ∧ s ≠ "" := by
  obtain ⟨hne, htc⟩ := tagLike_parts ht
  obtain ⟨c0, trest, hdata⟩ : ∃ c0 trest, t.data = c0 :: trest := by
    cases h : t.data with
    | nil => exact absurd h hne
    | cons a l => exact ⟨a, l, rfl⟩
  have hc0 : tagChar c0 = true := htc c0 (by rw [hdata]; simp)
  have hallchars : ∀ c ∈ s.data, c ≠ ' ' ∧ c ≠ '>' := by
    intro c hc
    rw [hs, List.mem_append] at hc
    rcases hc with hc | hc
    · have := tagChar_ne (htc c hc)
      exact ⟨this.2.2.1, this.2.2.2⟩
    · exact hmid c hc
  have hanysp : (s.data.any fun c => c = ' ') = false :=
    any_eqc_false (fun c hc => (hallchars c hc).1)
  have hanygt : (s.data.any fun c => c = '>') = false :=
    any_eqc_false (fun c hc => (hallchars c hc).2)
  have hc0ne := tagChar_ne hc0
  constructor
  · unfold classify
    rw [hs, hdata] at hanysp hanygt ⊢
    rw [hanysp, if_neg (by simp), if_neg (by simp [hc0ne.1]),
      if_neg (by simp [hc0ne.2.1]), hanygt, if_neg (by simp)]
    rw [← hdata]
    congr 1
    cases hm : mid with
    | nil =>
      rw [List.append_nil]
      exact List.dropWhile_eq_nil_iff.mpr htc
    | cons x r =>
      have hx : tagChar x = false := hstop x (by rw [hm]; rfl)
      exact dropWhile_all_cons tagChar t.data x r htc hx
  · intro he
    rw [he] at hs
    rw [hdata] at hs
    exact absurd hs (by simp)

/-! ### Structural selector segments -/

theorem seg_conclusion (s t : String) (mid : List Char)
    (hs : s.data = t.data ++ mid) (ht : tagLike t = true)
    (hmid : ∀ c ∈ mid, c ≠ ' ' ∧ c ≠ '>') :
    (∃ c cs, s.data = c :: cs ∧ tagChar c = true) ∧
    ∀ c ∈ s.data, c ≠ ' ' ∧ c ≠ '>' := by
  obtain ⟨hne, htc⟩ := tagLike_parts ht
  obtain ⟨c0, trest, hdata⟩ : ∃ c0 trest, t.data = c0 :: trest := by
    cases h : t.data with
    | nil => exact absurd h hne
    | cons a l => exact ⟨a, l, rfl⟩
  refine ⟨⟨c0, trest ++ mid, by rw [hs, hdata]; simp, htc c0 (by rw [hdata]; simp)⟩, ?_⟩
  intro c hc
  rw [hs, List.mem_append] at hc
  rcases hc with hc | hc
  · have := tagChar_ne (htc c hc)
    exact ⟨this.2.2.1, this.2.2.2⟩
  · exact hmid c hc

theorem nthOfTypeSuffix_chars (cs : List DNode) (i : Nat) (tag : String) :
    ∀ c ∈ (nthOfTypeSuffix cs i tag).data, c ≠ ' ' ∧ c ≠ '>' := by
  intro c hc
  simp only [nthOfTypeSuffix] at hc
  split at hc
  · split at hc
    · rw [String.data_append, String.data_append, List.mem_append,
        List.mem_append] at hc
      rcases hc with (hc | hc) | hc
      · exact (by decide : ∀ x ∈ ":nth-of-type(".data, x ≠ ' ' ∧ x ≠ '>') c hc
      · exact natToStr_chars _ c hc
      · exact (by decide : ∀ x ∈ ")".data, x ≠ ' ' ∧ x ≠ '>') c hc
    · exact absurd hc (by simp)
  · exact absurd hc (by simp)

theorem getNode?_append_elem : ∀ (q : Path) (root m : DNode) (i : Nat),
    getNode? root (q ++ [i]) = some m →
    ∃ d cs, getNode? root q = some (.elem d cs) ∧ cs.get? i = some m := by
  intro q
  induction q with
  | nil =>
    intro root m i h
    cases root with
    | txt s => exact absurd h (by simp [getNode?])
    | elem d cs =>
      simp only [List.nil_append, getNode?] at h
      cases hg : cs.get? i with
      | none => rw [hg] at h; exact absurd h (by simp)
      | some c =>
        rw [hg] at h
        simp only [getNode?] at h
        exact ⟨d, cs, rfl, by rw [hg, h]⟩
  | cons j q' ih =>
    intro root m i h
    cases root with
    | txt s => exact absurd h (by simp [getNode?])
    | elem d cs =>
      simp only [List.cons_append, getNode?] at h ⊢
      cases hg : cs.get? j with
      | none => rw [hg] at h; exact absurd h (by simp)
      | some c =>
        rw [hg] at h
        exact ih c m i h

theorem elemAt?_parent {root : DNode} {p : Path} {d : ElemData}
    (hp : p ≠ []) (hel : elemAt? root p = some d) :
    ∃ d', elemAt? root p.dropLast = some d' := by
  have hsplit : p.dropLast ++ [p.getLast hp] = p := List.dropLast_append_getLast hp
  unfold elemAt? at hel
  cases hg : getNode? root p with
  | none => rw [hg] at hel; exact absurd hel (by simp)
  | some n =>
    rw [hg] at hel
    cases n with
    | txt s => exact absurd hel (by simp)
    | elem dd cs =>
      rw [← hsplit] at hg
      obtain ⟨d', cs', h1, _⟩ := getNode?_append_elem _ root _ _ hg
      exact ⟨d', by unfold elemAt?; rw [h1]⟩

theorem makeSelectorParts_ne_nil {root : DNode} {p : Path} {d : ElemData} (rem : Nat)
    (hel : elemAt? root p = some d) :
    makeSelectorParts root p (rem + 1) ≠ [] := by
  simp only [makeSelectorParts, hel]
  split <;> simp

theorem plainSeg_spec {root : DNode} {p : Path} {d : ElemData}
    (htag : tagLike d.tag = true) :
    (∃ c cs, (makeSelectorParts.makeSelectorPlainSeg root p d).data = c :: cs ∧
      tagChar c = true) ∧
    ∀ c ∈ (makeSelectorParts.makeSelectorPlainSeg root p d).data,
      c ≠ ' ' ∧ c ≠ '>' := by
  unfold makeSelectorParts.makeSelectorPlainSeg
  cases hpp : parentPath? p with
  | some pp =>
    cases hlast : p.getLast? with
    | some i =>
      exact seg_conclusion _ (d.tag)
        ((nthOfTypeSuffix (childrenAt root pp) i d.tag).data)
        (String.data_append _ _) htag (nthOfTypeSuffix_chars _ _ _)
    | none =>
      exact seg_conclusion _ (d.tag) ([]) (by simp) htag (by simp)
  | none =>
    exact seg_conclusion _ (d.tag) ([]) (by simp) htag (by simp)

theorem makeSelectorParts_spec (root : DNode) (hwf : wfNode root = true) :
    ∀ (rem : Nat) (p : Path), ∀ s ∈ makeSelectorParts root p rem,
      (∃ c cs, s.data = c :: cs ∧ tagChar c = true) ∧
      ∀ c ∈ s.data, c ≠ ' ' ∧ c ≠ '>' := by
  intro rem
  induction rem with
  | zero =>
    intro p s hs
    exact absurd hs (by simp [makeSelectorParts])
  | succ rem ih =>
    intro p s hs
    simp only [makeSelectorParts] at hs
    cases hel : elemAt? root p with
    | none =>
      simp only [hel] at hs
      exact absurd hs (by simp)
    | some d =>
      simp only [hel] at hs
      have hwfe : wfElem d = true := wf_elemAt hwf hel
      have htag : tagLike d.tag = true :=
        ((Bool.and_eq_true _ _).mp ((Bool.and_eq_true _ _).mp hwfe).1).1
      by_cases hid : ((getAttr d.attrs "id").getD "") = ""
      · rw [if_neg (by simpa using hid)] at hs
        rcases List.mem_cons.mp hs with hseq | hrest
        · -- the segment of `p` itself
          subst hseq
          cases hgt : getAttr d.attrs "data-testid" with
          | some tid =>
            simp only [hgt]
            by_cases htid : tid = ""
            · rw [if_neg (by simpa using htid)]
              exact plainSeg_spec htag
            · rw [if_pos htid]
              refine seg_conclusion _ (d.tag)
                ("[data-testid=\"".data ++ tid.data ++ "\"]".data)
                (by simp [String.data_append, List.append_assoc]) htag ?_
              intro c hc
              rw [List.mem_append, List.mem_append] at hc
              rcases hc with (hc | hc) | hc
              · exact (by decide :
                  ∀ x ∈ "[data-testid=\"".data, x ≠ ' ' ∧ x ≠ '>') c hc
              · exact simpleChar_ne (idLike_all (getAttr_idLike hwfe hgt) c hc)
              · exact (by decide : ∀ x ∈ "\"]".data, x ≠ ' ' ∧ x ≠ '>') c hc
          | none =>
            simp only [hgt]
            cases hgar : getAttr d.attrs "aria-label" with
            | some ar =>
              simp only [hgar]
              by_cases har : ar = ""
              · rw [if_neg (by simpa using har)]
                exact plainSeg_spec htag
              · rw [if_pos har]
                refine seg_conclusion _ (d.tag)
                  ("[aria-label=\"".data ++ ar.data ++ "\"]".data)
                  (by simp [String.data_append, List.append_assoc]) htag ?_
                intro c hc
                rw [List.mem_append, List.mem_append] at hc
                rcases hc with (hc | hc) | hc
                · exact (by decide :
                    ∀ x ∈ "[aria-label=\"".data, x ≠ ' ' ∧ x ≠ '>') c hc
                · exact simpleChar_ne (idLike_all (getAttr_idLike hwfe hgar) c hc)
                · exact (by decide : ∀ x ∈ "\"]".data, x ≠ ' ' ∧ x ≠ '>') c hc
            | none =>
              simp only [hgar]
              exact plainSeg_spec htag
        · -- ancestor segments
          cases hpp : parentPath? p with
          | some pp =>
            simp only [hpp] at hrest
            exact ih pp s hrest
          | none =>
            simp only [hpp] at hrest
            exact absurd hrest (by simp)
      · -- id break
        rw [if_pos (by simpa using hid)] at hs
        obtain ⟨i0, hga⟩ : ∃ i0, getAttr d.attrs "id" = some i0 := by
          cases hga : getAttr d.attrs "id" with
          | none => rw [hga] at hid; exact absurd rfl hid
          | some i0 => exact ⟨i0, rfl⟩
        rw [hga, Option.getD_some] at hs
        have hii : idLike i0 = true := getAttr_idLike hwfe hga
        rw [List.mem_singleton] at hs
        subst hs
        rw [cssEscape_idLike hii]
        refine seg_conclusion _ (d.tag) ('#' :: i0.data)
          (by simp [String.data_append, List.append_assoc]) htag ?_
        intro c hc
        rcases List.mem_cons.mp hc with hc | hc
        · subst hc; exact ⟨by decide, by decide⟩
        · exact simpleChar_ne (idLike_all hii c hc)

/-! ### Classification of the structural selector -/

theorem joinGt_cons2 (a b : String) (l : List String) :
    joinGt (a :: b :: l) = a ++ ">" ++ joinGt (b :: l) := rfl

theorem joinGt_chars : ∀ (l : List String),
    (∀ x ∈ l, ∀ c ∈ x.data, c ≠ ' ') → ∀ c ∈ (joinGt l).data, c ≠ ' ' := by
  intro l
  induction l with
  | nil => intro _ c hc; exact absurd hc (by simp [joinGt])
  | cons a t ih =>
    intro hall c hc
    cases t with
    | nil => exact hall a (by simp) c hc
    | cons b r =>
      rw [joinGt_cons2, String.data_append, String.data_append] at hc
      rcases List.mem_append.mp hc with hc | hc
      · rcases List.mem_append.mp hc with hc | hc
        · exact hall a (by simp) c hc
        · have : c = '>' := by simpa using hc
          subst this
          decide
      · exact ih (fun x hx => hall x (by simp [hx])) c hc

theorem joinGt_head (a : String) (l : List String) {c0 : Char} {cs : List Char}
    (ha : a.data = c0 :: cs) :
    ∃ cs', (joinGt (a :: l)).data = c0 :: cs' := by
  cases l with
  | nil => exact ⟨cs, ha⟩
  | cons b r =>
    refine ⟨cs ++ ('>' :: (joinGt (b :: r)).data), ?_⟩
    rw [joinGt_cons2, String.data_append, String.data_append, ha]
    simp

theorem joinGt_gt_mem (a b : String) (l : List String) :
    '>' ∈ (joinGt (a :: b :: l)).data := by
  rw [joinGt_cons2, String.data_append, String.data_append]
  exact List.mem_append.mpr (Or.inl (List.mem_append.mpr (Or.inr (by decide))))

theorem classify_gt {s : String} {c0 : Char} {cs : List Char}
    (hdata : s.data = c0 :: cs) (hc0 : tagChar c0 = true)
    (hns : ∀ c ∈ s.data, c ≠ ' ') (hgt : '>' ∈ s.data) :
    classify s = 9 ∧ s ≠ "" := by
  have hany : (s.data.any fun c => c = ' ') = false := any_eqc_false hns
  have hc0ne := tagChar_ne hc0
  constructor
  · unfold classify
    rw [hdata] at hany hgt ⊢
    rw [hany, if_neg (by simp), if_neg (by simp [hc0ne.1]),
      if_neg (by simp [hc0ne.2.1]),
      if_pos (by rw [List.any_eq_true]; exact ⟨'>', hgt, by simp⟩)]
  · intro he
    rw [he] at hdata
    exact absurd hdata (by simp)

theorem parentPath?_eq_some {p : Path} {pp : Path}
    (h : parentPath? p = some pp) : p ≠ [] ∧ pp = p.dropLast := by
  cases p with
  | nil => exact absurd h (by simp [parentPath?])
  | cons j q =>
    refine ⟨by simp, ?_⟩
    simp only [parentPath?] at h
    injection h with h
    rw [h]

theorem makeSelectorParts_succ (root : DNode) (p : Path) (rem : Nat) :
    makeSelectorParts root p (rem + 1) =
      match elemAt? root p with
      | none => []
      | some d =>
        if ((getAttr d.attrs "id").getD "") ≠ "" then
          [d.tag ++ "#" ++ cssEscape ((getAttr d.attrs "id").getD "")]
        else
          (match getAttr d.attrs "data-testid" with
           | some tid =>
             if tid ≠ "" then d.tag ++ "[data-testid=\"" ++ tid ++ "\"]"
             else makeSelectorParts.makeSelectorPlainSeg root p d
           | none =>
             match getAttr d.attrs "aria-label" with
             | some aria =>
               if aria ≠ "" then d.tag ++ "[aria-label=\"" ++ aria ++ "\"]"
               else makeSelectorParts.makeSelectorPlainSeg root p d
             | none => makeSelectorParts.makeSelectorPlainSeg root p d) ::
            (match parentPath? p with
             | some pp => makeSelectorParts root pp rem
             | none => []) := by
  rfl

theorem singleton_part_classify {root : DNode} {p : Path} {d : ElemData} {q : String}
    (hwf : wfNode root = true) (hel : elemAt? root p = some d)
    (hparts : makeSelectorParts root p 5 = [q]) :
    9 ≤ classify q ∧ q ≠ "" := by
  have hwfe : wfElem d = true := wf_elemAt hwf hel
  have htag : tagLike d.tag = true :=
    ((Bool.and_eq_true _ _).mp ((Bool.and_eq_true _ _).mp hwfe).1).1
  rw [show (5 : Nat) = 4 + 1 from rfl, makeSelectorParts_succ] at hparts
  simp only [hel] at hparts
  by_cases hid : ((getAttr d.attrs "id").getD "") = ""
  · rw [if_neg (by simpa using hid)] at hparts
    injection hparts with hq htail
    -- the recursive tail must be empty, which forces `p = []`
    cases hpp : parentPath? p with
    | some pp =>
      rw [hpp] at htail
      obtain ⟨hpne, hdrop⟩ := parentPath?_eq_some hpp
      obtain ⟨d', held'⟩ := elemAt?_parent hpne hel
      rw [← hdrop] at held'
      exact absurd htail (makeSelectorParts_ne_nil 3 held')
    | none =>
      rw [hpp] at htail
      obtain ⟨hpnil, _⟩ : p = [] ∧ True := by
        cases p with
        | nil => exact ⟨rfl, trivial⟩
        | cons j r => exact absurd hpp (by simp [parentPath?])
      subst hpnil
      -- the element is the root: a single segment
      have hplain : makeSelectorParts.makeSelectorPlainSeg root [] d = d.tag := rfl
      cases hgt : getAttr d.attrs "data-testid" with
      | some tid =>
        simp only [hgt] at hq
        by_cases htid : tid = ""
        · rw [if_neg (by simpa using htid), hplain] at hq
          subst hq
          have := classify_tagged (d.tag) (d.tag) ([])
            (by simp) htag (by simp) (by simp)
          rw [this.1]
          exact ⟨by decide, this.2⟩
        · rw [if_pos htid] at hq
          subst hq
          have := classify_tagged
            (d.tag ++ "[data-testid=\"" ++ tid ++ "\"]") (d.tag)
            ("[data-testid=\"".data ++ tid.data ++ "\"]".data)
            (by simp [String.data_append, List.append_assoc]) htag
            (fun c hc => by
              rw [List.mem_append, List.mem_append] at hc
              rcases hc with (hc | hc) | hc
              · exact (by decide :
                  ∀ x ∈ "[data-testid=\"".data, x ≠ ' ' ∧ x ≠ '>') c hc
              · exact simpleChar_ne (idLike_all (getAttr_idLike hwfe hgt) c hc)
              · exact (by decide : ∀ x ∈ "\"]".data, x ≠ ' ' ∧ x ≠ '>') c hc)
            (fun c hc => by
              rw [show ("[data-testid=\"".data ++ tid.data ++
                "\"]".data).head? = some '[' from rfl] at hc
              injection hc with hc
              rw [← hc]
              decide)
          rw [this.1, show classifyTail ("[data-testid=\"".data ++ tid.data ++
            "\"]".data) = 11 from rfl]
          exact ⟨by decide, this.2⟩
      | none =>
        simp only [hgt] at hq
        cases hgar : getAttr d.attrs "aria-label" with
        | some ar =>
          simp only [hgar] at hq
          by_cases har : ar = ""
          · rw [if_neg (by simpa using har), hplain] at hq
            subst hq
            have := classify_tagged (d.tag) (d.tag) ([])
              (by simp) htag (by simp) (by simp)
            rw [this.1]
            exact ⟨by decide, this.2⟩
          · rw [if_pos har] at hq
            subst hq
            have := classify_tagged
              (d.tag ++ "[aria-label=\"" ++ ar ++ "\"]") (d.tag)
              ("[aria-label=\"".data ++ ar.data ++ "\"]".data)
              (by simp [String.data_append, List.append_assoc]) htag
              (fun c hc => by
                rw [List.mem_append, List.mem_append] at hc
                rcases hc with (hc | hc) | hc
                · exact (by decide :
                    ∀ x ∈ "[aria-label=\"".data, x ≠ ' ' ∧ x ≠ '>') c hc
                · exact simpleChar_ne (idLike_all (getAttr_idLike hwfe hgar) c hc)
                · exact (by decide : ∀ x ∈ "\"]".data, x ≠ ' ' ∧ x ≠ '>') c hc)
              (fun c hc => by
                rw [show ("[aria-label=\"".data ++ ar.data ++
                  "\"]".data).head? = some '[' from rfl] at hc
                injection hc with hc
                rw [← hc]
                decide)
            rw [this.1, show classifyTail ("[aria-label=\"".data ++ ar.data ++
              "\"]".data) = 10 from rfl]
            exact ⟨by decide, this.2⟩
        | none =>
          simp only [hgar, hplain] at hq
          subst hq
          have := classify_tagged (d.tag) (d.tag) ([])
            (by simp) htag (by simp) (by simp)
          rw [this.1]
          exact ⟨by decide, this.2⟩
  · rw [if_pos (by simpa using hid)] at hparts
    obtain ⟨i0, hga⟩ : ∃ i0, getAttr d.attrs "id" = some i0 := by
      cases hga : getAttr d.attrs "id" with
      | none => rw [hga] at hid; exact absurd rfl hid
      | some i0 => exact ⟨i0, rfl⟩
    rw [hga, Option.getD_some] at hparts
    have hii : idLike i0 = true := getAttr_idLike hwfe hga
    have hq : d.tag ++ "#" ++ cssEscape i0 = q := by
      injection hparts
    subst hq
    rw [cssEscape_idLike hii]
    have := classify_tagged (d.tag ++ "#" ++ i0) (d.tag)
      ('#' :: i0.data)
      (by simp [String.data_append, List.append_assoc]) htag
      (fun c hc => by
        rcases List.mem_cons.mp hc with hc | hc
        · subst hc; exact ⟨by decide, by decide⟩
        · exact simpleChar_ne (idLike_all hii c hc))
      (fun c hc => by
        simp only [List.head?_cons] at hc
        injection hc with hc
        rw [← hc]
        decide)
    rw [this.1, show classifyTail ('#' :: i0.data) = 12 from rfl]
    exact ⟨by decide, this.2⟩

theorem makeSelector_spec {root : DNode} {p : Path} {d : ElemData}
    (hwf : wfNode root = true) (hel : elemAt? root p = some d) :
    9 ≤ classify (makeSelector root p) ∧ makeSelector root p ≠ "" := by
  have hspec := makeSelectorParts_spec root hwf 5 p
  have hnn : makeSelectorParts root p 5 ≠ [] := makeSelectorParts_ne_nil 4 hel
  unfold makeSelector
  cases hrev : (makeSelectorParts root p 5).reverse with
  | nil => exact absurd (List.reverse_eq_nil_iff.mp hrev) hnn
  | cons q qs =>
    have hqmem : q ∈ makeSelectorParts root p 5 := by
      rw [← List.mem_reverse, hrev]
      simp
    cases qs with
    | nil =>
      have hsing : makeSelectorParts root p 5 = [q] := by
        rw [← List.reverse_reverse (makeSelectorParts root p 5), hrev]
        rfl
      have := singleton_part_classify hwf hel hsing
      simpa [joinGt] using this
    | cons b r =>
      obtain ⟨⟨c0, cs, hqd, hc0⟩, _⟩ := hspec q hqmem
      obtain ⟨cs', hdata⟩ := joinGt_head q (b :: r) hqd
      have hns : ∀ c ∈ (joinGt (q :: b :: r)).data, c ≠ ' ' := by
        apply joinGt_chars
        intro x hx c hc
        have hxmem : x ∈ makeSelectorParts root p 5 := by
          rw [← List.mem_reverse, hrev]
          exact hx
        exact ((hspec x hxmem).2 c hc).1
      have := classify_gt hdata hc0 hns (joinGt_gt_mem q b r)
      rw [this.1]
      exact ⟨by decide, this.2⟩

/-! ### Classification of the generator candidate groups -/

theorem pairwise_le_one {l : List String} (h : l.length ≤ 1) :
    List.Pairwise (fun a b => classify a < classify b) l := by
  cases l with
  | nil => simp
  | cons x t =>
    cases t with
    | nil => simp
    | cons y r => simp at h

theorem ladder_cons {g rest : List String} {k : Nat}
    (hlen : g.length ≤ 1)
    (hg : ∀ s ∈ g, classify s = k ∧ s ≠ "")
    (hp : List.Pairwise (fun a b => classify a < classify b) rest)
    (hb : ∀ s ∈ rest, k + 1 ≤ classify s ∧ s ≠ "") :
    List.Pairwise (fun a b => classify a < classify b) (g ++ rest) ∧
    ∀ s ∈ g ++ rest, k ≤ classify s ∧ s ≠ "" := by
  constructor
  · rw [List.pairwise_append]
    refine ⟨pairwise_le_one hlen, hp, ?_⟩
    intro a ha b hb'
    have h1 := (hg a ha).1
    have h2 := (hb b hb').1
    omega
  · intro s hs
    rcases List.mem_append.mp hs with hs | hs
    · exact ⟨le_of_eq (hg s hs).1.symm, (hg s hs).2⟩
    · have := hb s hs
      exact ⟨by omega, this.2⟩

theorem groups10 (g0 g1 g2 g3 g4 g5 g6 g7 g8 g9 : List String)
    (h0 : ∀ s ∈ g0, classify s = 0 ∧ s ≠ "") (hl0 : g0.length ≤ 1)
    (h1 : ∀ s ∈ g1, classify s = 1 ∧ s ≠ "") (hl1 : g1.length ≤ 1)
    (h2 : ∀ s ∈ g2, classify s = 2 ∧ s ≠ "") (hl2 : g2.length ≤ 1)
    (h3 : ∀ s ∈ g3, classify s = 3 ∧ s ≠ "") (hl3 : g3.length ≤ 1)
    (h4 : ∀ s ∈ g4, classify s = 4 ∧ s ≠ "") (hl4 : g4.length ≤ 1)
    (h5 : ∀ s ∈ g5, classify s = 5 ∧ s ≠ "") (hl5 : g5.length ≤ 1)
    (h6 : ∀ s ∈ g6, classify s = 6 ∧ s ≠ "") (hl6 : g6.length ≤ 1)
    (h7 : ∀ s ∈ g7, classify s = 7 ∧ s ≠ "") (hl7 : g7.length ≤ 1)
    (h8 : ∀ s ∈ g8, classify s = 8 ∧ s ≠ "") (hl8 : g8.length ≤ 1)
    (h9 : ∀ s ∈ g9, 9 ≤ classify s ∧ s ≠ "") (hl9 : g9.length ≤ 1) :
    List.Pairwise (fun a b => classify a < classify b)
      (g0 ++ (g1 ++ (g2 ++ (g3 ++ (g4 ++ (g5 ++ (g6 ++ (g7 ++ (g8 ++ g9))))))))) ∧
    ∀ s ∈ g0 ++ (g1 ++ (g2 ++ (g3 ++ (g4 ++ (g5 ++ (g6 ++ (g7 ++ (g8 ++ g9)))))))),
      s ≠ "" := by
  have H9 : List.Pairwise (fun a b => classify a < classify b) g9 ∧
      ∀ s ∈ g9, 9 ≤ classify s ∧ s ≠ "" := ⟨pairwise_le_one hl9, h9⟩
  have H8 := ladder_cons hl8 h8 H9.1 H9.2
  have H7 := ladder_cons hl7 h7 H8.1 H8.2
  have H6 := ladder_cons hl6 h6 H7.1 H7.2
  have H5 := ladder_cons hl5 h5 H6.1 H6.2
  have H4 := ladder_cons hl4 h4 H5.1 H5.2
  have H3 := ladder_cons hl3 h3 H4.1 H4.2
  have H2 := ladder_cons hl2 h2 H3.1 H3.2
  have H1 := ladder_cons hl1 h1 H2.1 H2.2
  have H0 := ladder_cons hl0 h0 H1.1 H1.2
  exact ⟨H0.1, fun s hs => (H0.2 s hs).2⟩

theorem generateClassSelector_classify {d : ElemData} (hwfe : wfElem d = true)
    {cs : String} (h : generateClassSelector d = some cs) :
    classify cs = 8 ∧ cs ≠ "" := by
  have htag : tagLike d.tag = true :=
    ((Bool.and_eq_true _ _).mp ((Bool.and_eq_true _ _).mp hwfe).1).1
  have hclasses : ∀ c ∈ d.classes, idLike c = true :=
    fun c hc => List.all_eq_true.mp ((Bool.and_eq_true _ _).mp hwfe).2 c hc
  simp only [generateClassSelector] at h
  split at h
  · exact absurd h (by simp)
  · split at h
    case isTrue hst =>
      injection h with h
      have hmem : ∀ c ∈ d.classes.filter (fun c => !isCssInJsClass c),
          idLike c = true :=
        fun c hc => hclasses c (List.mem_of_mem_filter hc)
      cases hstable : d.classes.filter (fun c => !isCssInJsClass c) with
      | nil => exact absurd hstable hst
      | cons c1 tl =>
        have hc1 : idLike c1 = true := hmem c1 (by rw [hstable]; simp)
        rw [hstable] at h
        cases tl with
        | nil =>
          rw [show (c1 :: []).take 2 = [c1] from rfl] at h
          simp only [List.map_cons, List.map_nil] at h
          rw [cssEscape_idLike hc1] at h
          have := classify_tagged (cs) (d.tag)
            ('.' :: c1.data)
            (by rw [← h, String.data_append,
              show (String.join [("." ++ c1)]).data = '.' :: c1.data by
                simp [String.join, String.data_append]]) htag
            (fun c hc => by
              rcases List.mem_cons.mp hc with hc | hc
              · subst hc; exact ⟨by decide, by decide⟩
              · exact simpleChar_ne (idLike_all hc1 c hc))
            (fun c hc => by
              simp only [List.head?_cons] at hc
              injection hc with hc
              rw [← hc]
              decide)
          rw [this.1] at *
          exact ⟨by rw [this.1]; rfl, this.2⟩
        | cons c2 r =>
          have hc2 : idLike c2 = true := hmem c2 (by rw [hstable]; simp)
          rw [show (c1 :: c2 :: r).take 2 = [c1, c2] from rfl] at h
          simp only [List.map_cons, List.map_nil] at h
          rw [cssEscape_idLike hc1, cssEscape_idLike hc2] at h
          have := classify_tagged (cs) (d.tag)
            ('.' :: (c1.data ++ '.' :: c2.data))
            (by rw [← h, String.data_append,
              show (String.join [("." ++ c1), ("." ++ c2)]).data =
                  '.' :: (c1.data ++ '.' :: c2.data) by
                simp [String.join, String.data_append]]) htag
            (fun c hc => by
              rcases List.mem_cons.mp hc with hc | hc
              · subst hc; exact ⟨by decide, by decide⟩
              · rcases List.mem_append.mp hc with hc | hc
                · exact simpleChar_ne (idLike_all hc1 c hc)
                · rcases List.mem_cons.mp hc with hc | hc
                  · subst hc; exact ⟨by decide, by decide⟩
                  · exact simpleChar_ne (idLike_all hc2 c hc))
            (fun c hc => by
              simp only [List.head?_cons] at hc
              injection hc with hc
              rw [← hc]
              decide)
          exact ⟨by rw [this.1]; rfl, this.2⟩
    case isFalse => exact absurd h (by simp)

theorem robustSelectors_spec {root : DNode} {p : Path} {d : ElemData}
    (hwf : wfNode root = true) (hel : elemAt? root p = some d) :
    List.Pairwise (fun a b => classify a < classify b) (robustSelectors root p) ∧
    ∀ s ∈ robustSelectors root p, s ≠ "" := by
  have hwfe : wfElem d = true := wf_elemAt hwf hel
  have htag : tagLike d.tag = true :=
    ((Bool.and_eq_true _ _).mp ((Bool.and_eq_true _ _).mp hwfe).1).1
  simp only [robustSelectors, hel, Option.getD_some, List.append_assoc]
  refine groups10 _ _ _ _ _ _ _ _ _ _ ?h0 ?hl0 ?h1 ?hl1 ?h2 ?hl2 ?h3 ?hl3
    ?h4 ?hl4 ?h5 ?hl5 ?h6 ?hl6 ?h7 ?hl7 ?h8 ?hl8 ?h9 ?hl9
  case h0 =>
    intro s hs
    cases hgt : getTestId d with
    | none => simp only [hgt] at hs; exact absurd hs (by simp)
    | some tid =>
      simp only [hgt, List.mem_singleton] at hs
      subst hs
      have hti := getTestId_idLike hwfe hgt
      have hcb := classify_bracket
        ("[data-testid=\"" ++ tid ++ "\"]") ('d')
        ("ata-testid=\"".data ++ (tid.data ++ "\"]".data))
        (by rw [String.data_append, String.data_append,
          show "[data-testid=\"".data = '[' :: 'd' :: "ata-testid=\"".data
            from rfl]; simp [List.cons_append, List.append_assoc])
        (fun c hc => by
          rw [String.data_append, String.data_append, List.mem_append,
            List.mem_append] at hc
          rcases hc with (hc | hc) | hc
          · exact ((by decide :
              ∀ x ∈ "[data-testid=\"".data, x ≠ ' ' ∧ x ≠ '>') c hc).1
          · exact (simpleChar_ne (idLike_all hti c hc)).1
          · exact ((by decide : ∀ x ∈ "\"]".data, x ≠ ' ' ∧ x ≠ '>') c hc).1)
      exact ⟨hcb.1.trans (by rfl), hcb.2⟩
  case hl0 =>
    cases getTestId d <;> simp
  case h1 =>
    intro s hs
    split at hs
    case isTrue hcond =>
      obtain ⟨i0, hga⟩ : ∃ i0, getAttr d.attrs "id" = some i0 := by
        cases hga : getAttr d.attrs "id" with
        | none => rw [hga] at hcond; simp at hcond
        | some i0 => exact ⟨i0, rfl⟩
      rw [hga, Option.getD_some] at hs
      simp only [List.mem_singleton] at hs
      subst hs
      have hii : idLike i0 = true := getAttr_idLike hwfe hga
      rw [cssEscape_idLike hii]
      exact classify_hash _ (i0.data)
        (by rw [String.data_append]; rfl)
        (fun c hc => by
          rw [String.data_append] at hc
          rcases List.mem_append.mp hc with hc | hc
          · have : c = '#' := by simpa using hc
            subst this
            decide
          · exact (simpleChar_ne (idLike_all hii c hc)).1)
    case isFalse => exact absurd hs (by simp)
  case hl1 =>
    split <;> simp
  case h2 =>
    intro s hs
    cases hgn : getAttr d.attrs "name" with
    | none => simp only [hgn] at hs; exact absurd hs (by simp)
    | some nm =>
      simp only [hgn] at hs
      split at hs
      case isTrue =>
        simp only [List.mem_singleton] at hs
        subst hs
        have hni := getAttr_idLike hwfe hgn
        have := classify_tagged
          (d.tag ++ "[name=\"" ++ nm ++ "\"]") (d.tag)
          ("[name=\"".data ++ nm.data ++ "\"]".data)
          (by simp [String.data_append, List.append_assoc]) htag
          (fun c hc => by
            rw [List.mem_append, List.mem_append] at hc
            rcases hc with (hc | hc) | hc
            · exact (by decide : ∀ x ∈ "[name=\"".data, x ≠ ' ' ∧ x ≠ '>') c hc
            · exact simpleChar_ne (idLike_all hni c hc)
            · exact (by decide : ∀ x ∈ "\"]".data, x ≠ ' ' ∧ x ≠ '>') c hc)
          (fun c hc => by
            rw [show ("[name=\"".data ++ nm.data ++ "\"]".data).head? =
              some '[' from rfl] at hc
            injection hc with hc
            rw [← hc]
            decide)
        exact ⟨this.1.trans (by rfl), this.2⟩
      case isFalse => exact absurd hs (by simp)
  case hl2 =>
    cases getAttr d.attrs "name" with
    | none => simp
    | some nm =>
      by_cases h : nm = ""
      · simp [h]
      · simp [h]
  case h3 =>
    intro s hs
    cases hgar : getAttr d.attrs "aria-label" with
    | none => simp only [hgar] at hs; exact absurd hs (by simp)
    | some ar =>
      simp only [hgar] at hs
      split at hs
      case isTrue =>
        simp only [List.mem_singleton] at hs
        subst hs
        have hai := getAttr_idLike hwfe hgar
        have hcb := classify_bracket
          ("[aria-label=\"" ++ ar ++ "\"]") ('a')
          ("ria-label=\"".data ++ (ar.data ++ "\"]".data))
          (by rw [String.data_append, String.data_append,
            show "[aria-label=\"".data = '[' :: 'a' :: "ria-label=\"".data
              from rfl]; simp [List.cons_append, List.append_assoc])
          (fun c hc => by
            rw [String.data_append, String.data_append, List.mem_append,
              List.mem_append] at hc
            rcases hc with (hc | hc) | hc
            · exact ((by decide :
                ∀ x ∈ "[aria-label=\"".data, x ≠ ' ' ∧ x ≠ '>') c hc).1
            · exact (simpleChar_ne (idLike_all hai c hc)).1
            · exact ((by decide : ∀ x ∈ "\"]".data, x ≠ ' ' ∧ x ≠ '>') c hc).1)
        exact ⟨hcb.1.trans (by rfl), hcb.2⟩
      case isFalse => exact absurd hs (by simp)
  case hl3 =>
    cases getAttr d.attrs "aria-label" with
    | none => simp
    | some ar =>
      by_cases h : ar = ""
      · simp [h]
      · simp [h]
  case h4 =>
    intro s hs
    cases hgp : getAttr d.attrs "placeholder" with
    | none => simp only [hgp] at hs; exact absurd hs (by simp)
    | some ph =>
      simp only [hgp] at hs
      split at hs
      case isTrue =>
        simp only [List.mem_singleton] at hs
        subst hs
        have hpi := getAttr_idLike hwfe hgp
        have := classify_tagged
          (d.tag ++ "[placeholder=\"" ++ ph ++ "\"]") (d.tag)
          ("[placeholder=\"".data ++ ph.data ++ "\"]".data)
          (by simp [String.data_append, List.append_assoc]) htag
          (fun c hc => by
            rw [List.mem_append, List.mem_append] at hc
            rcases hc with (hc | hc) | hc
            · exact (by decide :
                ∀ x ∈ "[placeholder=\"".data, x ≠ ' ' ∧ x ≠ '>') c hc
            · exact simpleChar_ne (idLike_all hpi c hc)
            · exact (by decide : ∀ x ∈ "\"]".data, x ≠ ' ' ∧ x ≠ '>') c hc)
          (fun c hc => by
            rw [show ("[placeholder=\"".data ++ ph.data ++
              "\"]".data).head? = some '[' from rfl] at hc
            injection hc with hc
            rw [← hc]
            decide)
        exact ⟨this.1.trans (by rfl), this.2⟩
      case isFalse => exact absurd hs (by simp)
  case hl4 =>
    cases getAttr d.attrs "placeholder" with
    | none => simp
    | some ph =>
      by_cases h : ph = ""
      · simp [h]
      · simp [h]
  case h5 =>
    intro s hs
    cases hgti : getAttr d.attrs "title" with
    | none => simp only [hgti] at hs; exact absurd hs (by simp)
    | some ti =>
      simp only [hgti] at hs
      split at hs
      case isTrue =>
        simp only [List.mem_singleton] at hs
        subst hs
        have hti2 := getAttr_idLike hwfe hgti
        have := classify_tagged
          (d.tag ++ "[title=\"" ++ ti ++ "\"]") (d.tag)
          ("[title=\"".data ++ ti.data ++ "\"]".data)
          (by simp [String.data_append, List.append_assoc]) htag
          (fun c hc => by
            rw [List.mem_append, List.mem_append] at hc
            rcases hc with (hc | hc) | hc
            · exact (by decide : ∀ x ∈ "[title=\"".data, x ≠ ' ' ∧ x ≠ '>') c hc
            · exact simpleChar_ne (idLike_all hti2 c hc)
            · exact (by decide : ∀ x ∈ "\"]".data, x ≠ ' ' ∧ x ≠ '>') c hc)
          (fun c hc => by
            rw [show ("[title=\"".data ++ ti.data ++ "\"]".data).head? =
              some '[' from rfl] at hc
            injection hc with hc
            rw [← hc]
            decide)
        exact ⟨this.1.trans (by rfl), this.2⟩
      case isFalse => exact absurd hs (by simp)
  case hl5 =>
    cases getAttr d.attrs "title" with
    | none => simp
    | some ti =>
      by_cases h : ti = ""
      · simp [h]
      · simp [h]
  case h6 =>
    intro s hs
    split at hs
    case isTrue hcond =>
      obtain ⟨al, hga⟩ : ∃ al, getAttr d.attrs "alt" = some al := by
        cases hga : getAttr d.attrs "alt" with
        | none => rw [hga] at hcond; simp at hcond
        | some al => exact ⟨al, rfl⟩
      rw [hga, Option.getD_some] at hs
      simp only [List.mem_singleton] at hs
      subst hs
      have hili := getAttr_idLike hwfe hga
      have := classify_tagged
        ("img[alt=\"" ++ al ++ "\"]") ("img")
        ("[alt=\"".data ++ al.data ++ "\"]".data)
        (by simp only [String.data_append, List.append_assoc,
          show "img[alt=\"".data = "img".data ++ "[alt=\"".data from rfl,
          List.cons_append, List.nil_append])
        (by decide)
        (fun c hc => by
          rw [List.mem_append, List.mem_append] at hc
          rcases hc with (hc | hc) | hc
          · exact (by decide : ∀ x ∈ "[alt=\"".data, x ≠ ' ' ∧ x ≠ '>') c hc
          · exact simpleChar_ne (idLike_all hili c hc)
          · exact (by decide : ∀ x ∈ "\"]".data, x ≠ ' ' ∧ x ≠ '>') c hc)
        (fun c hc => by
          rw [show ("[alt=\"".data ++ al.data ++ "\"]".data).head? =
            some '[' from rfl] at hc
          injection hc with hc
          rw [← hc]
          decide)
      exact ⟨this.1.trans (by rfl), this.2⟩
    case isFalse => exact absurd hs (by simp)
  case hl6 =>
    split <;> simp
  case h7 =>
    intro s hs
    split at hs
    case isTrue =>
      cases hfc : getFormContext root p with
      | none => simp only [hfc] at hs; exact absurd hs (by simp)
      | some fc =>
        simp only [hfc, List.mem_singleton] at hs
        subst hs
        exact classify_space (by
          rw [String.data_append]
          exact List.mem_append.mpr (Or.inr (by decide)))
    case isFalse => exact absurd hs (by simp)
  case hl7 =>
    split
    · cases getFormContext root p <;> simp
    · simp
  case h8 =>
    intro s hs
    cases hgc : generateClassSelector d with
    | none => simp only [hgc] at hs; exact absurd hs (by simp)
    | some cs =>
      simp only [hgc, List.mem_singleton] at hs
      subst hs
      exact generateClassSelector_classify hwfe hgc
  case hl8 =>
    cases generateClassSelector d <;> simp
  case h9 =>
    intro s hs
    split at hs
    case isTrue =>
      simp only [List.mem_singleton] at hs
      subst hs
      exact (makeSelector_spec hwf hel)
    case isFalse => exact absurd hs (by simp)
  case hl9 =>
    split <;> simp

/-- Claim C4: on a well-formed document (tag-like tag names,
identifier-like attribute values and class names), locator generation for
any element returns a locator whose primary selector is non-empty and whose
fallback list has no duplicates and never contains the primary selector;
generation itself is total. -/
theorem claim_C4 (root : DNode) (p : Path) (d : ElemData)
    (hwf : wfNode root = true) (hel : elemAt? root p = some d) :
    (generateRobustLocator root p).primary ≠ "" ∧
    (generateRobustLocator root p).fallbacks.Nodup ∧
    (generateRobustLocator root p).primary ∉
      (generateRobustLocator root p).fallbacks := by
  obtain ⟨hpw, hne⟩ := robustSelectors_spec hwf hel
  simp only [generateRobustLocator]
  cases hsel : robustSelectors root p with
  | nil =>
    simp only [hsel, List.head?_nil, List.tail_nil]
    exact ⟨(makeSelector_spec hwf hel).2, by simp [jsDedup, jsDedup.go],
      by simp [jsDedup, jsDedup.go]⟩
  | cons s tail =>
    rw [hsel] at hpw hne
    have hsne : s ≠ "" := hne s (by simp)
    simp only [hsel, List.head?_cons, List.tail_cons]
    rw [if_neg hsne]
    refine ⟨hsne, jsDedup_nodup tail, ?_⟩
    intro hmem
    have hmt : s ∈ tail := jsDedup_mem hmem
    have := (List.pairwise_cons.mp hpw).1 s hmt
    omega

/-- Witness for claim C4 at the named input inside the `#f` form. -/
theorem claim_C4_witness :
    (generateRobustLocator genBody [0, 0]).primary ≠ "" ∧
    (generateRobustLocator genBody [0, 0]).fallbacks.Nodup ∧
    (generateRobustLocator genBody [0, 0]).primary ∉
      (generateRobustLocator genBody [0, 0]).fallbacks :=
  claim_C4 genBody [0, 0]
    { tag := "input", attrs := [("name", "q"), ("placeholder", "p")] }
    (by decide) (by decide)

end AutoWiz
